import Mathlib

set_option maxHeartbeats 1000000
set_option maxRecDepth 10000

/-!
Shallow embedding of the SABFS v2 in-memory filesystem (src/sabfs.js).

The shared byte buffer is modelled in three faithful pieces:
  * the superblock words as record fields of `State` (the JS code accesses
    them through `Atomics` on the `u32` view; the embedding is sequential,
    so a compare-exchange always succeeds on the first try and the retry
    loops of `allocBlock` / `freeBlock` / `allocInode` never iterate);
  * the inode table as a map from inode number to a decoded `Inode` record
    (the JS `readInode` / `writeInode` codec is a bijection between the
    128-byte slots and these records, and no operation reads an inode slot
    except through the codec);
  * the data-block region as a map from data-block number to a byte map
    (`Block`), since data blocks are variously reinterpreted as free-list
    links, pointer blocks, directory-entry arrays and file bytes.

`TextEncoder` / `TextDecoder` are modelled by a UTF-8 encoder/decoder on
byte lists.  The per-context JS module state (fd table, next fd, path
cache) lives in the same `State`, matching a single execution context.
The wall clock (`now()`) is the `clock` field, held fixed by every
operation: time is an external input of the original code.
-/

namespace SFS

/-! ### Constants (src/sabfs.js lines 33-71) -/

def BLOCK_SIZE : Nat := 4096
def INODE_SIZE : Nat := 128
def DIRENT_SIZE : Nat := 32
def DIRENTS_PER_BLOCK : Nat := 128
def DIRECT_BLOCKS : Nat := 8
def PTRS_PER_BLOCK : Nat := 1024
def MAX_NAME_LEN : Nat := 255
def MAGIC : Nat := 0x53414247
def VERSION : Nat := 2
def TERM : Nat := 0xFFFFFFFF

def S_IFMT : Nat := 0o170000
def S_IFDIR : Nat := 0o040000
def S_IFREG : Nat := 0o100000
def S_IFLNK : Nat := 0o120000

def DT_REG : Nat := 8
def DT_LNK : Nat := 10
def DT_DIR : Nat := 4

def O_RDONLY : Nat := 0
def O_WRONLY : Nat := 1
def O_RDWR : Nat := 2
def O_CREAT : Nat := 0o100
def O_EXCL : Nat := 0o200
def O_TRUNC : Nat := 0o1000
def O_APPEND : Nat := 0o2000
def O_NOFOLLOW : Nat := 0o400000

/-! ### Byte-level blocks -/

/-- A data block: a map from byte offset to byte value. -/
abbrev Block := Nat → Nat

def zeroBlock : Block := fun _ => 0

/-- Byte `r` of the little-endian encoding of `v`. -/
def byteOf (v r : Nat) : Nat := v / 256 ^ r % 256

/-- Little-endian 32-bit read (DataView.getUint32 with littleEndian). -/
def getU32 (b : Block) (off : Nat) : Nat :=
  b off + 256 * b (off + 1) + 65536 * b (off + 2) + 16777216 * b (off + 3)

/-- Little-endian 32-bit write (DataView.setUint32 with littleEndian). -/
def setU32 (b : Block) (off v : Nat) : Block :=
  fun i => if off ≤ i ∧ i < off + 4 then byteOf v (i - off) else b i

/-- Little-endian 16-bit read. -/
def getU16 (b : Block) (off : Nat) : Nat :=
  b off + 256 * b (off + 1)

/-- Little-endian 16-bit write. -/
def setU16 (b : Block) (off v : Nat) : Block :=
  fun i => if off ≤ i ∧ i < off + 2 then byteOf v (i - off) else b i

/-- u8.fill(val, lo, hi). -/
def fillBytes (b : Block) (lo hi val : Nat) : Block :=
  fun i => if lo ≤ i ∧ i < hi then val else b i

/-- u8.set(bytes, off). -/
def setBytes (b : Block) (off : Nat) (bs : List Nat) : Block :=
  fun i => if off ≤ i ∧ i < off + bs.length then bs.getD (i - off) 0 else b i

/-- u8.slice(off, off+n) as a byte list. -/
def getBytes (b : Block) (off n : Nat) : List Nat :=
  (List.range n).map fun k => b (off + k)

/-! ### Inode records (the readInode/writeInode codec, lines 248-291) -/

structure Inode where
  mode : Nat
  nlink : Nat
  uid : Nat
  gid : Nat
  size : Nat
  atime : Nat
  mtime : Nat
  ctime : Nat
  blocks : Nat
  direct : List Nat
  indirect : Nat
  doubleIndirect : Nat
  flags : Nat
deriving DecidableEq, Repr

def Inode.zero : Inode :=
  { mode := 0, nlink := 0, uid := 0, gid := 0, size := 0, atime := 0,
    mtime := 0, ctime := 0, blocks := 0, direct := List.replicate 8 0,
    indirect := 0, doubleIndirect := 0, flags := 0 }

/-- The partial-update argument of `writeInode`: a JS object literal whose
absent properties leave the corresponding inode field unchanged. -/
structure InodeUpd where
  mode : Option Nat := none
  nlink : Option Nat := none
  uid : Option Nat := none
  gid : Option Nat := none
  size : Option Nat := none
  atime : Option Nat := none
  mtime : Option Nat := none
  ctime : Option Nat := none
  blocks : Option Nat := none
  direct : Option (List Nat) := none
  indirect : Option Nat := none
  doubleIndirect : Option Nat := none
  flags : Option Nat := none

def applyUpd (r : Inode) (u : InodeUpd) : Inode :=
  { mode := u.mode.getD r.mode, nlink := u.nlink.getD r.nlink,
    uid := u.uid.getD r.uid, gid := u.gid.getD r.gid,
    size := u.size.getD r.size, atime := u.atime.getD r.atime,
    mtime := u.mtime.getD r.mtime, ctime := u.ctime.getD r.ctime,
    blocks := u.blocks.getD r.blocks, direct := u.direct.getD r.direct,
    indirect := u.indirect.getD r.indirect,
    doubleIndirect := u.doubleIndirect.getD r.doubleIndirect,
    flags := u.flags.getD r.flags }

/-! ### Descriptors and association lists (JS Map) -/

structure FileDesc where
  ino : Nat
  path : String
  flags : Nat
  pos : Nat
deriving DecidableEq, Repr

def lookupA {κ α : Type} [DecidableEq κ] : List (κ × α) → κ → Option α
  | [], _ => none
  | (k, v) :: t, q => if k = q then some v else lookupA t q

def setA {κ α : Type} [DecidableEq κ] : List (κ × α) → κ → α → List (κ × α)
  | [], q, w => [(q, w)]
  | (k, v) :: t, q, w => if k = q then (q, w) :: t else (k, v) :: setA t q w

def delA {κ α : Type} [DecidableEq κ] : List (κ × α) → κ → List (κ × α)
  | [], _ => []
  | (k, v) :: t, q => if k = q then delA t q else (k, v) :: delA t q

/-! ### The filesystem state -/

structure State where
  magic : Nat
  version : Nat
  sbBlockSize : Nat
  totalBlocks : Nat
  inodeCount : Nat
  freeBlockHead : Nat
  nextFreeInode : Nat
  rootInode : Nat
  dataBlockCount : Nat
  inodes : Nat → Inode
  dataBlocks : Nat → Block
  fdTable : List (Nat × FileDesc)
  nextFd : Nat
  pathCache : List (String × Nat)
  clock : Nat

/-- Pointwise update of a map. -/
def updF {α : Type} (f : Nat → α) (k : Nat) (v : α) : Nat → α :=
  fun i => if i = k then v else f i

def readInode (st : State) (ino : Nat) : Inode := st.inodes ino

def writeInode (st : State) (ino : Nat) (u : InodeUpd) : State :=
  { st with inodes := updF st.inodes ino (applyUpd (st.inodes ino) u) }

def setBlkU32 (st : State) (b off v : Nat) : State :=
  { st with dataBlocks := updF st.dataBlocks b (setU32 (st.dataBlocks b) off v) }

def setBlkU16 (st : State) (b off v : Nat) : State :=
  { st with dataBlocks := updF st.dataBlocks b (setU16 (st.dataBlocks b) off v) }

def fillBlk (st : State) (b lo hi val : Nat) : State :=
  { st with dataBlocks := updF st.dataBlocks b (fillBytes (st.dataBlocks b) lo hi val) }

def setBlkBytes (st : State) (b off : Nat) (bs : List Nat) : State :=
  { st with dataBlocks := updF st.dataBlocks b (setBytes (st.dataBlocks b) off bs) }

/-! ### UTF-8 (TextEncoder / TextDecoder) -/

def utf8Char (c : Char) : List Nat :=
  let n := c.toNat
  if n < 0x80 then [n]
  else if n < 0x800 then [0xC0 + n / 64, 0x80 + n % 64]
  else if n < 0x10000 then [0xE0 + n / 4096, 0x80 + n / 64 % 64, 0x80 + n % 64]
  else [0xF0 + n / 262144, 0x80 + n / 4096 % 64, 0x80 + n / 64 % 64, 0x80 + n % 64]

def utf8Bytes (s : String) : List Nat := (s.data.map utf8Char).flatten

/-- UTF-8 decoding (inverse of `utf8Bytes` on valid encodings, which is all
the byte sequences this code ever stores). -/
def utf8DecodeGo : Nat → List Nat → List Char
  | 0, _ => []
  | _, [] => []
  | f + 1, a :: rest =>
    if a < 128 then Char.ofNat a :: utf8DecodeGo f rest
    else if a < 224 then
      match rest with
      | b :: r2 => Char.ofNat ((a % 32) * 64 + b % 64) :: utf8DecodeGo f r2
      | [] => [Char.ofNat 65533]
    else if a < 240 then
      match rest with
      | b :: c :: r3 =>
        Char.ofNat ((a % 16) * 4096 + (b % 64) * 64 + c % 64) :: utf8DecodeGo f r3
      | _ => [Char.ofNat 65533]
    else
      match rest with
      | b :: c :: d :: r4 =>
        Char.ofNat ((a % 8) * 262144 + (b % 64) * 4096 + (c % 64) * 64 + d % 64)
          :: utf8DecodeGo f r4
      | _ => [Char.ofNat 65533]

def utf8Decode (bs : List Nat) : String := String.mk (utf8DecodeGo bs.length bs)

/-! ### Block allocation (lines 198-237) -/

def allocBlock (st : State) : Option Nat × State :=
  let head := st.freeBlockHead
  if head = TERM ∨ head = 0 then (none, st)
  else
    let nextFree := getU32 (st.dataBlocks head) 0
    let st1 := { st with freeBlockHead := nextFree }
    (some head, fillBlk st1 head 0 BLOCK_SIZE 0)

def freeBlock (st : State) (blockNum : Nat) : State :=
  if blockNum = 0 ∨ blockNum = TERM then st
  else
    let st1 := setBlkU32 st blockNum 0 st.freeBlockHead
    { st1 with freeBlockHead := blockNum }

def allocInode (st : State) : Option Nat × State :=
  if st.inodeCount ≤ st.nextFreeInode then (none, st)
  else
    (some st.nextFreeInode,
      { st with inodes := updF st.inodes st.nextFreeInode Inode.zero,
                nextFreeInode := st.nextFreeInode + 1 })

/-! ### Block mapping (lines 294-364) -/

def getBlockNum (st : State) (inode : Inode) (fileBlock : Nat) : Option Nat :=
  if fileBlock < DIRECT_BLOCKS then
    let blk := inode.direct.getD fileBlock 0
    if blk = 0 then none else some blk
  else
    let indirectIdx := fileBlock - DIRECT_BLOCKS
    if indirectIdx < PTRS_PER_BLOCK then
      if inode.indirect = 0 then none
      else
        let ptr := getU32 (st.dataBlocks inode.indirect) (indirectIdx * 4)
        if ptr = 0 then none else some ptr
    else
      let doubleIdx := indirectIdx - PTRS_PER_BLOCK
      let l1 := doubleIdx / PTRS_PER_BLOCK
      let l2 := doubleIdx % PTRS_PER_BLOCK
      if inode.doubleIndirect = 0 then none
      else
        let l1Ptr := getU32 (st.dataBlocks inode.doubleIndirect) (l1 * 4)
        if l1Ptr = 0 then none
        else
          let ptr := getU32 (st.dataBlocks l1Ptr) (l2 * 4)
          if ptr = 0 then none else some ptr

/-- Raw u32 write into the direct[] slot of an inode record. -/
def setDirectSlot (st : State) (ino fb v : Nat) : State :=
  let r := st.inodes ino
  { st with inodes := updF st.inodes ino { r with direct := r.direct.set fb v } }

def setIndirectField (st : State) (ino v : Nat) : State :=
  let r := st.inodes ino
  { st with inodes := updF st.inodes ino { r with indirect := v } }

def setDoubleIndirectField (st : State) (ino v : Nat) : State :=
  let r := st.inodes ino
  { st with inodes := updF st.inodes ino { r with doubleIndirect := v } }

def setBlocksField (st : State) (ino v : Nat) : State :=
  let r := st.inodes ino
  { st with inodes := updF st.inodes ino { r with blocks := v } }

/-- Bump the blocks counter and return the freshly mapped block
(the common tail of allocBlockForFile, lines 361-363). -/
def bumpBlocks (st : State) (ino newBlock : Nat) : Option Nat × State :=
  (some newBlock, setBlocksField st ino ((st.inodes ino).blocks + 1))

def allocBlockForFile (st : State) (ino fileBlock : Nat) : Option Nat × State :=
  match allocBlock st with
  | (none, st0) => (none, st0)
  | (some newBlock, st0) =>
    if fileBlock < DIRECT_BLOCKS then
      bumpBlocks (setDirectSlot st0 ino fileBlock newBlock) ino newBlock
    else
      let indirectIdx := fileBlock - DIRECT_BLOCKS
      if indirectIdx < PTRS_PER_BLOCK then
        let ind0 := (st0.inodes ino).indirect
        if ind0 = 0 then
          match allocBlock st0 with
          | (none, st1) => (none, freeBlock st1 newBlock)
          | (some ind, st1) =>
            let st2 := setIndirectField st1 ino ind
            bumpBlocks (setBlkU32 st2 ind (indirectIdx * 4) newBlock) ino newBlock
        else
          bumpBlocks (setBlkU32 st0 ind0 (indirectIdx * 4) newBlock) ino newBlock
      else
        let doubleIdx := indirectIdx - PTRS_PER_BLOCK
        let l1 := doubleIdx / PTRS_PER_BLOCK
        let l2 := doubleIdx % PTRS_PER_BLOCK
        let dbl0 := (st0.inodes ino).doubleIndirect
        let afterDbl : Option (Nat × State) :=
          if dbl0 = 0 then
            match allocBlock st0 with
            | (none, _) => none
            | (some d, st1) => some (d, setDoubleIndirectField st1 ino d)
          else some (dbl0, st0)
        match afterDbl with
        | none =>
          -- double-indirect root allocation failed: free the data block
          (none, freeBlock (allocBlock st0).2 newBlock)
        | some (dbl, stA) =>
          let l1Ptr0 := getU32 (stA.dataBlocks dbl) (l1 * 4)
          if l1Ptr0 = 0 then
            match allocBlock stA with
            | (none, stB) => (none, freeBlock stB newBlock)
            | (some l1Ptr, stB) =>
              let stC := setBlkU32 stB dbl (l1 * 4) l1Ptr
              bumpBlocks (setBlkU32 stC l1Ptr (l2 * 4) newBlock) ino newBlock
          else
            bumpBlocks (setBlkU32 stA l1Ptr0 (l2 * 4) newBlock) ino newBlock

/-! ### Directory store (lines 367-426, 822-849) -/

/-- The number of directory blocks scanned: ceil(size/BLOCK_SIZE) || 1. -/
def dirNumBlocks (size : Nat) : Nat := max ((size + 4095) / 4096) 1

def lookupInDir (st : State) (dirIno : Nat) (name : String) : Option Nat :=
  let dir := readInode st dirIno
  if dir.mode &&& S_IFMT ≠ S_IFDIR then none
  else
    (List.range (dirNumBlocks dir.size)).findSome? fun b =>
      match getBlockNum st dir b with
      | none => none
      | some blk =>
        (List.range DIRENTS_PER_BLOCK).findSome? fun i =>
          let off := i * DIRENT_SIZE
          let entIno := getU32 (st.dataBlocks blk) off
          if entIno = 0 then none
          else
            let nameLen := getU16 (st.dataBlocks blk) (off + 4)
            if getBytes (st.dataBlocks blk) (off + 8) nameLen = utf8Bytes name
            then some entIno else none

def findFreeSlot (st : State) (blk : Nat) : Option Nat :=
  (List.range DIRENTS_PER_BLOCK).find? fun i =>
    getU32 (st.dataBlocks blk) (i * DIRENT_SIZE) == 0

/-- Write a directory entry into slot `i` of block `blk` and update the
directory size/timestamps when the entry extends past `dir.size` (the
stale record read at addDirEntry entry). -/
def placeEntry (st : State) (dirIno : Nat) (dir : Inode) (nbytes : List Nat)
    (ino dtype blk b i : Nat) : State :=
  let off := i * DIRENT_SIZE
  let st1 := setBlkU32 st blk off ino
  let st2 := setBlkU16 st1 blk (off + 4) nbytes.length
  let st3 := setBlkU16 st2 blk (off + 6) dtype
  let st4 := fillBlk st3 blk (off + 8) (off + 32) 0
  let st5 := setBlkBytes st4 blk (off + 8) nbytes
  let newSize := b * BLOCK_SIZE + (i + 1) * DIRENT_SIZE
  if dir.size < newSize then
    writeInode st5 dirIno
      { size := some newSize, mtime := some st5.clock, ctime := some st5.clock }
  else st5

def addDirLoop (dirIno : Nat) (dir : Inode) (nbytes : List Nat) (ino dtype : Nat) :
    Nat → Nat → State → Bool × State
  | 0, _, st => (false, st)
  | fuel + 1, b, st =>
    match getBlockNum st dir b with
    | some blk =>
      match findFreeSlot st blk with
      | some i => (true, placeEntry st dirIno dir nbytes ino dtype blk b i)
      | none => addDirLoop dirIno dir nbytes ino dtype fuel (b + 1) st
    | none =>
      match allocBlockForFile st dirIno b with
      | (none, st1) => (false, st1)
      | (some blk, st1) =>
        match findFreeSlot st1 blk with
        | some i => (true, placeEntry st1 dirIno dir nbytes ino dtype blk b i)
        | none => addDirLoop dirIno dir nbytes ino dtype fuel (b + 1) st1

def addDirEntry (st : State) (dirIno : Nat) (name : String) (ino dtype : Nat) :
    Bool × State :=
  let dir := readInode st dirIno
  if dir.mode &&& S_IFMT ≠ S_IFDIR then (false, st)
  else
    let nbytes := utf8Bytes name
    if 24 < nbytes.length then (false, st)
    else addDirLoop dirIno dir nbytes ino dtype (dirNumBlocks dir.size + 1) 0 st

/-- Locate the directory entry with the given name: (block, slot, inode).
The scan up to the match is read-only, so splitting search from the
mutation is behaviour-preserving. -/
def findDirEntry (st : State) (dir : Inode) (name : String) : Option (Nat × Nat × Nat) :=
  (List.range (dirNumBlocks dir.size)).findSome? fun b =>
    match getBlockNum st dir b with
    | none => none
    | some blk =>
      (List.range DIRENTS_PER_BLOCK).findSome? fun i =>
        let off := i * DIRENT_SIZE
        let entIno := getU32 (st.dataBlocks blk) off
        if entIno = 0 then none
        else
          let nameLen := getU16 (st.dataBlocks blk) (off + 4)
          if getBytes (st.dataBlocks blk) (off + 8) nameLen = utf8Bytes name
          then some (blk, i, entIno) else none

def removeDirEntry (st : State) (dirIno : Nat) (name : String) : Option Nat × State :=
  let dir := readInode st dirIno
  if dir.mode &&& S_IFMT ≠ S_IFDIR then (none, st)
  else
    match findDirEntry st dir name with
    | none => (none, st)
    | some (blk, i, entIno) =>
      let st1 := fillBlk st blk (i * DIRENT_SIZE) (i * DIRENT_SIZE + DIRENT_SIZE) 0
      (some entIno,
        writeInode st1 dirIno { mtime := some st1.clock, ctime := some st1.clock })

/-! ### Path handling (lines 429-503) -/

/-- path.split(sep) for the single-character separator, like JS split. -/
def splitSlashGo : List Char → List Char → List String
  | [], acc => [String.mk acc.reverse]
  | c :: cs, acc =>
    if c = '/' then String.mk acc.reverse :: splitSlashGo cs []
    else splitSlashGo cs (c :: acc)

/-- path.split(slash).filter(p => p.length > 0). -/
def pathParts (s : String) : List String :=
  (splitSlashGo s.data []).filter fun p => p.length > 0

def normParts (ps : List String) : List String :=
  ps.foldl
    (fun acc p =>
      if p = "." then acc else if p = ".." then acc.dropLast else acc ++ [p]) []

def normalizePath (path : String) : String :=
  "/" ++ String.intercalate "/" (normParts (pathParts path))

/-! ### Symlink target (lines 506-529) -/

def readTargetBytes (st : State) (inode : Inode) : Nat → Nat → Nat → List Nat
  | 0, _, _ => []
  | fuel + 1, pos, fileBlock =>
    if pos < inode.size then
      match getBlockNum st inode fileBlock with
      | none => []
      | some blk =>
        let chunkSize := min (inode.size - pos) BLOCK_SIZE
        getBytes (st.dataBlocks blk) 0 chunkSize
          ++ readTargetBytes st inode fuel (pos + chunkSize) (fileBlock + 1)
    else []

def readSymlinkTarget (st : State) (ino : Nat) : Option String :=
  let inode := readInode st ino
  if inode.mode &&& S_IFMT ≠ S_IFLNK then none
  else if inode.size = 0 then some ""
  else some (utf8Decode
    (readTargetBytes st inode ((inode.size + 4095) / 4096) 0 0))

/-! ### Path resolution (lines 440-503) -/

/-- target.startsWith(slash). -/
def targetIsAbs (t : String) : Bool :=
  match t.data with
  | c :: _ => c = '/'
  | [] => false

/-- Outcome of one pass of the component loop of resolvePathInternal:
either a final answer, or a spliced path to re-resolve with a smaller
symlink budget (the only recursive call in the JS code). -/
inductive StepRes where
  | done (r : Option Nat)
  | splice (t : String)

def resolveStep (st : State) (follow : Bool) :
    List String → List String → Nat → StepRes
  | [], _, ino => .done (some ino)
  | p :: rest, doneParts, ino =>
    match lookupInDir st ino p with
    | none => .done none
    | some ino2 =>
      let inode := readInode st ino2
      if inode.mode &&& S_IFMT = S_IFLNK then
        if follow = false ∧ rest = [] then .done (some ino2)
        else
          match readSymlinkTarget st ino2 with
          | none => .done none
          | some t =>
            if t.length = 0 then .done none
            else
              let doneParts2 := doneParts ++ [p]
              let parentPath := "/" ++ String.intercalate "/" doneParts2.dropLast
              let base := if targetIsAbs t then t else parentPath ++ "/" ++ t
              let full :=
                if rest = [] then base
                else base ++ "/" ++ String.intercalate "/" rest
              .splice full
      else resolveStep st follow rest (doneParts ++ [p]) ino2

def resolvePathInternal (st : State) (follow : Bool) :
    Nat → String → Option Nat
  | 0, _ => none
  | maxDepth + 1, path =>
    match resolveStep st follow (pathParts (normalizePath path)) [] 0 with
    | .done r => r
    | .splice t => resolvePathInternal st follow maxDepth t

/-- Number of symlink splices performed by a resolution run with the given
budget (instrumentation of `resolvePathInternal`; a path "contains more
than k nested symlinks" precisely when a run with budget above k performs
more than k splices). -/
def rsplices (st : State) (follow : Bool) : Nat → String → Nat
  | 0, _ => 0
  | maxDepth + 1, path =>
    match resolveStep st follow (pathParts (normalizePath path)) [] 0 with
    | .done _ => 0
    | .splice t => 1 + rsplices st follow maxDepth t

def resolvePath (st : State) (path : String) : Option Nat × State :=
  match lookupA st.pathCache path with
  | some cached => (some cached, st)
  | none =>
    match resolvePathInternal st true 40 path with
    | some ino => (some ino, { st with pathCache := setA st.pathCache path ino })
    | none => (none, st)

def lresolvePath (st : State) (path : String) : Option Nat :=
  resolvePathInternal st false 40 path

def resolveParent (st : State) (path : String) : Option Nat × String × State :=
  let parts := pathParts (normalizePath path)
  if parts.isEmpty then (some 0, "", st)
  else
    let basename := parts.getLastD ""
    let parentPath := "/" ++ String.intercalate "/" parts.dropLast
    match resolvePath st parentPath with
    | (r, st1) => (r, basename, st1)

/-! ### open (lines 593-648) -/

/-- Common tail of open once an inode is at hand: ISDIR check, TRUNC,
descriptor registration.  The descriptor position uses the inode record
read BEFORE the TRUNC write, exactly as the JS code does. -/
def openFinish (st : State) (path : String) (flags ino : Nat) : Option Nat × State :=
  let inode := readInode st ino
  if inode.mode &&& S_IFMT = S_IFDIR then (none, st)
  else
    let st1 :=
      if flags &&& O_TRUNC ≠ 0 then
        writeInode st ino
          { size := some 0, blocks := some 0, mtime := some st.clock,
            ctime := some st.clock, direct := some [0, 0, 0, 0, 0, 0, 0, 0],
            indirect := some 0, doubleIndirect := some 0 }
      else st
    let fd := st1.nextFd
    (some fd,
      { st1 with
        nextFd := fd + 1,
        fdTable := setA st1.fdTable fd
          { ino := ino, path := path, flags := flags,
            pos := if flags &&& O_APPEND ≠ 0 then inode.size else 0 } })

/-- The O_CREAT branch of open. -/
def openCreate (st : State) (path : String) (flags mode : Nat) : Option Nat × State :=
  match resolveParent st path with
  | (none, _, st1) => (none, st1)
  | (some parentIno, basename, st1) =>
    match allocInode st1 with
    | (none, st2) => (none, st2)
    | (some ino, st2) =>
      let t := st2.clock
      let st3 := writeInode st2 ino
        { mode := some (S_IFREG ||| (mode &&& 0o7777)), nlink := some 1,
          uid := some 0, gid := some 0, size := some 0, atime := some t,
          mtime := some t, ctime := some t, blocks := some 0 }
      match addDirEntry st3 parentIno basename ino DT_REG with
      | (false, st4) => (none, st4)
      | (true, st4) =>
        let st5 := { st4 with pathCache := setA st4.pathCache (normalizePath path) ino }
        openFinish st5 path flags ino

def openFile (st : State) (path : String) (flags mode : Nat) : Option Nat × State :=
  let follow := flags &&& O_NOFOLLOW = 0
  let resolved : Option Nat × State :=
    if follow then resolvePath st path else (lresolvePath st path, st)
  match resolved with
  | (some ino, st1) => openFinish st1 path flags ino
  | (none, st1) =>
    if flags &&& O_CREAT = 0 then (none, st1)
    else openCreate st1 path flags mode

/-! ### unlink / symlink (lines 851-916) -/

def unlink (st : State) (path : String) : Int × State :=
  match lresolvePath st path with
  | none => (-1, st)
  | some ino =>
    let inode := readInode st ino
    if inode.mode &&& S_IFMT = S_IFDIR then (-1, st)
    else
      match resolveParent st path with
      | (none, _, st1) => (-1, st1)
      | (some parentIno, basename, st1) =>
        let st2 := (removeDirEntry st1 parentIno basename).2
        let st3 :=
          if inode.nlink - 1 = 0 then
            writeInode st2 ino { mode := some 0, nlink := some 0 }
          else
            writeInode st2 ino
              { nlink := some (inode.nlink - 1), ctime := some st2.clock }
        (0, { st3 with pathCache := delA st3.pathCache (normalizePath path) })

/-- The symlink target-byte write loop; stops early when a block
allocation fails, in which case symlink returns -1 with the mutations
made so far kept (exactly the JS early return). -/
def symlinkWriteLoop (ino : Nat) (tb : List Nat) :
    Nat → Nat → Nat → State → Bool × State
  | 0, _, _, st => (true, st)
  | fuel + 1, pos, fileBlock, st =>
    if pos < tb.length then
      match allocBlockForFile st ino fileBlock with
      | (none, st1) => (false, st1)
      | (some blk, st1) =>
        let chunkSize := min (tb.length - pos) BLOCK_SIZE
        let st2 := setBlkBytes st1 blk 0 ((tb.drop pos).take chunkSize)
        symlinkWriteLoop ino tb fuel (pos + chunkSize) (fileBlock + 1) st2
    else (true, st)

def symlink (st : State) (target path : String) : Int × State :=
  if lresolvePath st path ≠ none then (-1, st)
  else
    match resolveParent st path with
    | (none, _, st1) => (-1, st1)
    | (some parentIno, basename, st1) =>
      match allocInode st1 with
      | (none, st2) => (-1, st2)
      | (some ino, st2) =>
        let t := st2.clock
        let tb := utf8Bytes target
        let st3 := writeInode st2 ino
          { mode := some (S_IFLNK ||| 0o777), nlink := some 1, uid := some 0,
            gid := some 0, size := some tb.length, atime := some t,
            mtime := some t, ctime := some t, blocks := some 0 }
        match symlinkWriteLoop ino tb ((tb.length + 4095) / 4096) 0 0 st3 with
        | (false, st4) => (-1, st4)
        | (true, st4) =>
          match addDirEntry st4 parentIno basename ino DT_LNK with
          | (false, st5) => (-1, st5)
          | (true, st5) => (0, st5)

/-! ### truncate / chmod / chown (lines 969-1001) -/

def truncate (st : State) (path : String) (length : Nat) : Int × State :=
  match resolvePath st path with
  | (none, st1) => (-1, st1)
  | (some ino, st1) =>
    let inode := readInode st1 ino
    if inode.mode &&& S_IFMT ≠ S_IFREG then (-1, st1)
    else
      (0, writeInode st1 ino
        { size := some length, mtime := some st1.clock, ctime := some st1.clock })

def chmod (st : State) (path : String) (mode : Nat) : Int × State :=
  match resolvePath st path with
  | (none, st1) => (-1, st1)
  | (some ino, st1) =>
    let inode := readInode st1 ino
    (0, writeInode st1 ino
      { mode := some ((inode.mode &&& S_IFMT) ||| (mode &&& 0o7777)),
        ctime := some st1.clock })

/-- The conditionally built updates object of chown: uid/gid only when
they differ from -1, ctime always. -/
def chownUpd (uid gid : Int) (t : Nat) : InodeUpd :=
  let u0 : InodeUpd := { ctime := some t }
  let u1 := if uid ≠ -1 then { u0 with uid := some uid.toNat } else u0
  if gid ≠ -1 then { u1 with gid := some gid.toNat } else u1

def chown (st : State) (path : String) (uid gid : Int) : Int × State :=
  match resolvePath st path with
  | (none, st1) => (-1, st1)
  | (some ino, st1) => (0, writeInode st1 ino (chownUpd uid gid st1.clock))

/-! ### statfs (lines 1047-1070) -/

structure StatFs where
  ftype : Nat
  bsize : Nat
  blocks : Nat
  bfree : Nat
  bavail : Nat
  files : Nat
  ffree : Nat
  namelen : Nat
deriving DecidableEq, Repr

/-- The free-list walk of statfs, bounded by totalDataBlocks steps. -/
def freeWalkGo (st : State) : Nat → Nat → Nat
  | 0, _ => 0
  | fuel + 1, blk =>
    if blk = TERM ∨ blk = 0 then 0
    else 1 + freeWalkGo st fuel (getU32 (st.dataBlocks blk) 0)

def statfs (st : State) : StatFs :=
  { ftype := MAGIC, bsize := BLOCK_SIZE, blocks := st.dataBlockCount,
    bfree := freeWalkGo st st.dataBlockCount st.freeBlockHead,
    bavail := freeWalkGo st st.dataBlockCount st.freeBlockHead,
    files := st.inodeCount, ffree := st.inodeCount - st.nextFreeInode,
    namelen := MAX_NAME_LEN }

/-! ### init (lines 124-171) -/

def init (sizeBytes : Nat) (inodeCountOpt : Option Nat) (t : Nat) : State :=
  let totalBlocks := sizeBytes / BLOCK_SIZE
  let inodeCount := inodeCountOpt.getD (min (totalBlocks / 4) 65536)
  let inodeTableBlocks := (inodeCount * INODE_SIZE + 4095) / 4096
  let dbc := totalBlocks - 1 - inodeTableBlocks
  let st0 : State :=
    { magic := MAGIC, version := VERSION, sbBlockSize := BLOCK_SIZE,
      totalBlocks := totalBlocks, inodeCount := inodeCount,
      freeBlockHead := 1, nextFreeInode := 1, rootInode := 0,
      dataBlockCount := dbc,
      inodes := fun _ => Inode.zero, dataBlocks := fun _ => zeroBlock,
      fdTable := [], nextFd := 3, pathCache := [], clock := t }
  let st1 := (List.range' 1 (dbc - 2)).foldl (fun s i => setBlkU32 s i 0 (i + 1)) st0
  let st2 := setBlkU32 st1 (dbc - 1) 0 TERM
  writeInode st2 0
    { mode := some (S_IFDIR ||| 0o755), nlink := some 2, uid := some 0,
      gid := some 0, size := some 0, atime := some t, mtime := some t,
      ctime := some t }

/-! ### Claim-level measurement functions

These are formalizations of the specification's vocabulary (not source
translations): counting data blocks owned by inodes, and the resolve
variant selected by an open call's flags. -/

/-- Number of nonzero pointers inside a pointer block. -/
def ownedPtrCount (st : State) (blk : Nat) : Nat :=
  ((List.range PTRS_PER_BLOCK).filter fun j =>
    getU32 (st.dataBlocks blk) (j * 4) != 0).length

/-- Data blocks owned by one live inode record: nonzero direct pointers,
the indirect pointer block plus its targets, and the double-indirect root
plus L1 blocks plus their targets.  A record with mode 0 (free or
tombstoned) owns nothing. -/
def ownedOfInode (st : State) (r : Inode) : Nat :=
  if r.mode = 0 then 0
  else
    (r.direct.filter fun b => b != 0).length
    + (if r.indirect = 0 then 0 else 1 + ownedPtrCount st r.indirect)
    + (if r.doubleIndirect = 0 then 0
       else 1 + ((List.range PTRS_PER_BLOCK).map fun j =>
         let l1 := getU32 (st.dataBlocks r.doubleIndirect) (j * 4)
         if l1 = 0 then 0 else 1 + ownedPtrCount st l1).sum)

/-- Total number of data blocks owned by inodes. -/
def countOwned (st : State) : Nat :=
  ((List.range st.inodeCount).map fun i => ownedOfInode st (st.inodes i)).sum

/-- The resolution result an open call bases its descriptor on
(resolvePath when following links, lresolvePath under NOFOLLOW). -/
def openResolve (st : State) (path : String) (flags : Nat) : Option Nat :=
  if flags &&& O_NOFOLLOW = 0 then (resolvePath st path).1
  else lresolvePath st path

/-! ### Concrete scenario states

`stA`: a fresh 32 KiB filesystem (8 blocks, 2 inodes, 6 data blocks,
free list 1..5).  `stLnk`: after creating the symlink /hn -> /t.  -/

def stA : State := init 32768 none 0

def stLnk : State := (symlink stA "/t" "/hn").2

/-- Scenario-F style state: a 32 KiB filesystem with 8 inode slots whose
four symlinks /a /b /c /d consume all five free data blocks (one target
block each plus one root-directory block). -/
def stB0 : State := init 32768 (some 8) 0
def stB1 : State := (symlink stB0 "x" "/a").2
def stB2 : State := (symlink stB1 "x" "/b").2
def stB3 : State := (symlink stB2 "x" "/c").2
def stB4 : State := (symlink stB3 "x" "/d").2
def stB5 : State := (unlink stB4 "/b").2

/-- A fresh filesystem holding the regular file /a (inode 1). -/
def stC1 : State := (openFile stA "/a" O_CREAT 0o644).2

/-- stC1 after truncate("/a", 6): the file has size 6 (and no blocks). -/
def stD2 : State := (truncate stC1 "/a" 6).2

/-- Result of reopening /a with WRONLY|APPEND|TRUNC on stD2. -/
def openD : Option Nat × State :=
  openFile stD2 "/a" (O_WRONLY ||| O_APPEND ||| O_TRUNC) 0o644

def decDigits (n : Nat) : List Nat :=
  if n < 10 then [48 + n] else [48 + n / 10, 48 + n % 10]

def sNameBytes (k : Nat) : List Nat := 115 :: decDigits k

def chainTarget (i : Nat) : List Nat :=
  if i = 1 then [47, 102] else 47 :: 115 :: decDigits (i - 1)

def chainLinkInode (i : Nat) : Inode :=
  { mode := S_IFLNK ||| 0o777, nlink := 1, uid := 0, gid := 0,
    size := (chainTarget i).length, atime := 0, mtime := 0, ctime := 0,
    blocks := 1, direct := [i, 0, 0, 0, 0, 0, 0, 0],
    indirect := 0, doubleIndirect := 0, flags := 0 }

def chainFileInode : Inode :=
  { mode := S_IFREG ||| 0o644, nlink := 1, uid := 0, gid := 0, size := 0,
    atime := 0, mtime := 0, ctime := 0, blocks := 0,
    direct := List.replicate 8 0, indirect := 0, doubleIndirect := 0,
    flags := 0 }

def chainRootInode : Inode :=
  { mode := S_IFDIR ||| 0o755, nlink := 2, uid := 0, gid := 0,
    size := 42 * 32, atime := 0, mtime := 0, ctime := 0, blocks := 1,
    direct := [50, 0, 0, 0, 0, 0, 0, 0], indirect := 0, doubleIndirect := 0,
    flags := 0 }

def chainEntryIno (k : Nat) : Nat := if k = 41 then 42 else k + 1
def chainEntryName (k : Nat) : List Nat := if k = 41 then [102] else sNameBytes (k + 1)
def chainEntryType (k : Nat) : Nat := if k = 41 then DT_REG else DT_LNK

/-- The root-directory data block: 42 packed 32-byte entries. -/
def chainDirBlock : Block := fun off =>
  let k := off / 32
  let r := off % 32
  if k < 42 then
    if r < 4 then byteOf (chainEntryIno k) r
    else if r = 4 then (chainEntryName k).length
    else if r = 6 then chainEntryType k
    else if 8 ≤ r then (chainEntryName k).getD (r - 8) 0
    else 0
  else 0

def chainTargetBlock (i : Nat) : Block := fun off => (chainTarget i).getD off 0

def chainSt : State :=
  { magic := MAGIC, version := VERSION, sbBlockSize := BLOCK_SIZE,
    totalBlocks := 1024, inodeCount := 64, freeBlockHead := TERM,
    nextFreeInode := 43, rootInode := 0, dataBlockCount := 900,
    inodes := fun i =>
      if i = 0 then chainRootInode
      else if 1 ≤ i ∧ i ≤ 41 then chainLinkInode i
      else if i = 42 then chainFileInode
      else Inode.zero,
    dataBlocks := fun b =>
      if b = 50 then chainDirBlock
      else if 1 ≤ b ∧ b ≤ 41 then chainTargetBlock b
      else zeroBlock,
    fdTable := [], nextFd := 3, pathCache := [], clock := 0 }

/-- The data_block_count computed by initialize for a given buffer size
and inode-count override (restated for the conservation theorem). -/
def initDataBlockCount (sizeBytes : Nat) (inodeCountOpt : Option Nat) : Nat :=
  sizeBytes / BLOCK_SIZE - 1 -
    ((inodeCountOpt.getD (min (sizeBytes / BLOCK_SIZE / 4) 65536)) * INODE_SIZE + 4095) / 4096

/-- Frame relation: the per-context descriptor state is untouched and no
inode other than d changed. -/
def Keeps (d : Nat) (st st2 : State) : Prop :=
  st2.nextFd = st.nextFd ∧ st2.fdTable = st.fdTable ∧ st2.clock = st.clock ∧
  ∀ x, x ≠ d → st2.inodes x = st.inodes x

/-! ## Theorems -/

/-- Claim C1 (the code violates it): in a state whose root holds the
symlink /hn (inode 1), open with NOFOLLOW|RDONLY does not fail with
INVAL; it returns descriptor 3 and registers it on the symlink inode. -/
theorem c1_open_nofollow_registers_symlink :
    lresolvePath stLnk "/hn" = some 1 ∧
    (stLnk.inodes 1).mode &&& S_IFMT = S_IFLNK ∧
    (openFile stLnk "/hn" (O_NOFOLLOW ||| O_RDONLY) 0o644).1 = some 3 ∧
    (lookupA (openFile stLnk "/hn" (O_NOFOLLOW ||| O_RDONLY) 0o644).2.fdTable 3).map
      (fun d => d.ino) = some 1 := by decide

/-- Claim C2 (the code violates it): in the Scenario-F state stB4 with
free_blocks = 0, /b is a non-directory inode (2) owning one data block;
unlink("/b") succeeds and tombstones it, yet statfs still reports
free_blocks = 0 instead of 1: unlink never returns blocks to the free
list. -/
theorem c2_unlink_keeps_free_blocks_zero :
    (statfs stB4).bfree = 0 ∧
    (stB4.inodes 2).mode &&& S_IFMT = S_IFLNK ∧
    (stB4.inodes 2).blocks = 1 ∧
    lresolvePath stB4 "/b" = some 2 ∧
    (unlink stB4 "/b").1 = 0 ∧
    (stB5.inodes 2).mode = 0 ∧
    (statfs stB5).bfree = 0 := by decide

/-- Claim C3 counterexample: /a exists (inode 1) in stC1, yet
open("/a", CREAT|EXCL, 0o644) returns the valid descriptor 4 and creates
no file (next_free_inode unchanged), instead of failing with EXISTS. -/
theorem c3_excl_counterexample :
    (resolvePath stC1 "/a").1 = some 1 ∧
    (openFile stC1 "/a" (O_CREAT ||| O_EXCL) 0o644).1 = some 4 ∧
    (openFile stC1 "/a" (O_CREAT ||| O_EXCL) 0o644).2.nextFreeInode
      = stC1.nextFreeInode := by
  decide

/-- Claim C4 counterexample: already in the state initialize(32768)
itself (reachable by the empty operation sequence), owned blocks plus
free-list blocks equal data_block_count - 1, not data_block_count:
block 0 of the data region is on neither side. -/
theorem c4_counterexample_block0_reserved :
    countOwned stA + (statfs stA).bfree = stA.dataBlockCount - 1 ∧
    countOwned stA + (statfs stA).bfree ≠ stA.dataBlockCount := by decide

/-- Claim C6 counterexample: /a has size 6 in stD2; opening it with
WRONLY|APPEND|TRUNC registers position 6 (the pre-truncation size)
although the size after truncation is 0. -/
theorem c6_counterexample_append_trunc_pos :
    (stD2.inodes 1).size = 6 ∧
    openD.1 = some 4 ∧
    (lookupA openD.2.fdTable 4).map (fun d => d.pos) = some 6 ∧
    (openD.2.inodes 1).size = 0 := by decide

/-- A resolution run that performs more than d splices with a larger
budget fails with budget d. -/
theorem resolve_none_of_splices (st : State) (follow : Bool) :
    ∀ d p, d + 1 ≤ rsplices st follow (d + 1) p →
      resolvePathInternal st follow d p = none := by
  intro d
  induction d with
  | zero => intro p _; rfl
  | succ n ih =>
    intro p h
    rw [rsplices] at h
    rw [resolvePathInternal]
    cases hs : resolveStep st follow (pathParts (normalizePath p)) [] 0 with
    | done r => rw [hs] at h; simp at h
    | splice t =>
      rw [hs] at h
      simp only [] at h
      exact ih t (by omega)

/-- Claim C7: the resolver is a total function of a symlink budget that
starts at 40 and decreases by one on each splice; with the budget
exhausted (0) every resolution fails, and any path whose resolution
performs more than 40 symlink splices (measured by the instrumented
count with budget 41) fails under the standard budget of 40. -/
theorem c7_symlink_depth_cap :
    (∀ (st : State) (follow : Bool) (p : String),
       resolvePathInternal st follow 0 p = none) ∧
    (∀ (st : State) (p : String),
       41 ≤ rsplices st true 41 p → resolvePathInternal st true 40 p = none) := by
  constructor
  · intro st follow p; rfl
  · intro st p h; exact resolve_none_of_splices st true 40 p h

/-- Witness for C7: the 41-symlink chain /s41 -> /s40 -> ... -> /s1 -> /f
satisfies the hypothesis (41 splices) and indeed fails to resolve. -/
theorem c7_witness :
    41 ≤ rsplices chainSt true 41 "/s41" ∧
    resolvePathInternal chainSt true 40 "/s41" = none :=
  ⟨by decide, c7_symlink_depth_cap.2 chainSt "/s41" (by decide)⟩

/-- Claim C8 counterexample: statfs reports namelen = 255 (the
MAX_NAME_LEN constant), not the enforced 24-byte directory-entry limit. -/
theorem c8_counterexample_namelen :
    (statfs stA).namelen = 255 ∧ (statfs stA).namelen ≠ 24 := by decide

/-- Claim C8 as amended: addDirEntry rejects (returning false with the
state unchanged) every name whose UTF-8 encoding exceeds 24 bytes, but
statfs reports namelen = 255. -/
theorem c8_name_limit_and_statfs :
    (∀ (st : State) (dirIno : Nat) (name : String) (ino dtype : Nat),
       24 < (utf8Bytes name).length →
       addDirEntry st dirIno name ino dtype = (false, st)) ∧
    (∀ st : State, (statfs st).namelen = 255) := by
  constructor
  · intro st dirIno name ino dtype h
    unfold addDirEntry
    dsimp only []
    split
    · rfl
    · simp [h]
  · intro st; rfl

/-- Witness for C8: a 25-byte name is rejected on the fresh filesystem,
whose statfs namelen is 255. -/
theorem c8_witness :
    addDirEntry stA 0 "abcdefghijklmnopqrstuvwxy" 1 8 = (false, stA) ∧
    (statfs stA).namelen = 255 :=
  ⟨c8_name_limit_and_statfs.1 stA 0 "abcdefghijklmnopqrstuvwxy" 1 8 (by decide),
   c8_name_limit_and_statfs.2 stA⟩

/-! ### Claim C9: chmod / chown idempotence -/

lemma lookupA_setA_self {κ α : Type} [DecidableEq κ] (l : List (κ × α)) (k : κ) (v : α) :
    lookupA (setA l k v) k = some v := by
  induction l with
  | nil => simp [setA, lookupA]
  | cons hd tl ih =>
    obtain ⟨k2, v2⟩ := hd
    by_cases h : k2 = k
    · simp [setA, h, lookupA]
    · simp [setA, h, lookupA, ih]

lemma updF_self_eq {α : Type} (f : Nat → α) (k : Nat) : updF f k (f k) = f := by
  funext i
  by_cases h : i = k <;> simp [updF, h]

lemma updF_updF {α : Type} (f : Nat → α) (k : Nat) (a b : α) :
    updF (updF f k a) k b = updF f k b := by
  funext i
  by_cases h : i = k <;> simp [updF, h]

lemma getD_getD {α : Type} (o : Option α) (x : α) : o.getD (o.getD x) = o.getD x := by
  cases o <;> rfl

lemma applyUpd_idem (r : Inode) (u : InodeUpd) :
    applyUpd (applyUpd r u) u = applyUpd r u := by
  simp [applyUpd, getD_getD]

lemma writeInode_inodes_self (st : State) (ino : Nat) (u : InodeUpd) :
    (writeInode st ino u).inodes ino = applyUpd (st.inodes ino) u := by
  simp [writeInode, updF]

lemma writeInode_writeInode_same (st : State) (ino : Nat) (u : InodeUpd) :
    writeInode (writeInode st ino u) ino u = writeInode st ino u := by
  conv_lhs => rw [writeInode, writeInode_inodes_self, applyUpd_idem]
  show ({ writeInode st ino u with
    inodes := updF (writeInode st ino u).inodes ino (applyUpd (st.inodes ino) u) } : State)
    = writeInode st ino u
  have h2 : updF (writeInode st ino u).inodes ino (applyUpd (st.inodes ino) u)
      = (writeInode st ino u).inodes := by
    show updF (updF st.inodes ino (applyUpd (st.inodes ino) u)) ino
        (applyUpd (st.inodes ino) u) = _
    rw [updF_updF]
    rfl
  rw [h2]

lemma resolvePath_again (st : State) (p : String) (ino : Nat)
    (h : (resolvePath st p).1 = some ino)
    (st2 : State) (hc : st2.pathCache = (resolvePath st p).2.pathCache) :
    resolvePath st2 p = (some ino, st2) := by
  unfold resolvePath at h hc ⊢
  cases hl : lookupA st.pathCache p with
  | some c =>
    rw [hl] at h hc
    simp at h
    rw [hc, hl, h]
  | none =>
    rw [hl] at h hc
    cases hi : resolvePathInternal st true 40 p with
    | none => rw [hi] at h; simp at h
    | some i =>
      rw [hi] at h hc
      simp at h
      rw [hc]
      simp [lookupA_setA_self, h]

lemma mode_mask_idem (x m : Nat) :
    (((x &&& S_IFMT) ||| (m &&& 0o7777)) &&& S_IFMT) ||| (m &&& 0o7777)
      = (x &&& S_IFMT) ||| (m &&& 0o7777) := by
  apply Nat.eq_of_testBit_eq
  intro i
  simp only [Nat.testBit_lor, Nat.testBit_land]
  cases x.testBit i <;> cases m.testBit i <;>
    cases (S_IFMT : Nat).testBit i <;> cases (0o7777 : Nat).testBit i <;> rfl

lemma writeInode_mode_ctime_noop (st : State) (ino : Nat) (mv cv : Nat)
    (hm : (st.inodes ino).mode = mv) (hc : (st.inodes ino).ctime = cv) :
    writeInode st ino { mode := some mv, ctime := some cv } = st := by
  rw [writeInode]
  have happ : applyUpd (st.inodes ino) { mode := some mv, ctime := some cv }
      = st.inodes ino := by
    cases hrec : st.inodes ino with
    | mk a b c d e f g h2 i j k l m2 =>
      rw [hrec] at hm hc
      simp only at hm hc
      simp only [applyUpd, Option.getD_some, Option.getD_none]
      rw [← hm, ← hc]
  rw [happ, updF_self_eq]

lemma chmod_eq (st : State) (path : String) (m ino : Nat)
    (h : (resolvePath st path).1 = some ino) :
    chmod st path m =
      (0, writeInode (resolvePath st path).2 ino
        { mode := some ((((resolvePath st path).2.inodes ino).mode &&& S_IFMT)
                          ||| (m &&& 0o7777)),
          ctime := some (resolvePath st path).2.clock }) := by
  have hR : resolvePath st path = (some ino, (resolvePath st path).2) := by
    rw [← h]
  conv_lhs => rw [chmod, hR]
  rfl

lemma chmod_twice (st : State) (path : String) (m ino : Nat)
    (h : (resolvePath st path).1 = some ino) :
    chmod (chmod st path m).2 path m = chmod st path m := by
  have hEq1 := chmod_eq st path m ino h
  have hcache : ((chmod st path m).2).pathCache = (resolvePath st path).2.pathCache := by
    rw [hEq1]
    rfl
  have hAgain := resolvePath_again st path ino h (chmod st path m).2 hcache
  have h2 : (resolvePath (chmod st path m).2 path).1 = some ino := by rw [hAgain]
  have hEq2 := chmod_eq (chmod st path m).2 path m ino h2
  rw [hEq2, hAgain]
  conv_rhs => rw [hEq1]
  rw [hEq1]
  dsimp only
  generalize (resolvePath st path).2 = rst
  congr 1
  apply writeInode_mode_ctime_noop
  · simp [writeInode, updF, applyUpd, mode_mask_idem]
  · simp [writeInode, updF, applyUpd]

lemma chown_eq (st : State) (path : String) (uid gid : Int) (ino : Nat)
    (h : (resolvePath st path).1 = some ino) :
    chown st path uid gid =
      (0, writeInode (resolvePath st path).2 ino
            (chownUpd uid gid (resolvePath st path).2.clock)) := by
  have hR : resolvePath st path = (some ino, (resolvePath st path).2) := by
    rw [← h]
  conv_lhs => rw [chown, hR]

lemma chown_twice (st : State) (path : String) (uid gid : Int) (ino : Nat)
    (h : (resolvePath st path).1 = some ino) :
    chown (chown st path uid gid).2 path uid gid = chown st path uid gid := by
  have hEq1 := chown_eq st path uid gid ino h
  have hcache : ((chown st path uid gid).2).pathCache
      = (resolvePath st path).2.pathCache := by
    rw [hEq1]
    rfl
  have hAgain := resolvePath_again st path ino h (chown st path uid gid).2 hcache
  have h2 : (resolvePath (chown st path uid gid).2 path).1 = some ino := by rw [hAgain]
  have hEq2 := chown_eq (chown st path uid gid).2 path uid gid ino h2
  rw [hEq2, hAgain]
  have hclk : ((chown st path uid gid).2).clock = (resolvePath st path).2.clock := by
    rw [hEq1]
    rfl
  rw [hclk, hEq1]
  dsimp only
  rw [writeInode_writeInode_same]

/-- Claim C9: with the clock held fixed (the clock state field, which no
operation changes), applying the same chmod twice produces the same
return value and state as applying it once, and likewise for chown, for
every resolvable path. -/
theorem c9_chmod_chown_idempotent :
    (∀ (st : State) (path : String) (m ino : Nat),
       (resolvePath st path).1 = some ino →
       chmod (chmod st path m).2 path m = chmod st path m) ∧
    (∀ (st : State) (path : String) (uid gid : Int) (ino : Nat),
       (resolvePath st path).1 = some ino →
       chown (chown st path uid gid).2 path uid gid = chown st path uid gid) :=
  ⟨fun st path m ino h => chmod_twice st path m ino h,
   fun st path uid gid ino h => chown_twice st path uid gid ino h⟩

/-- Witness for C9: chmod and chown on the root path of the fresh
filesystem. -/
theorem c9_witness :
    chmod (chmod stA "/" 0o700).2 "/" 0o700 = chmod stA "/" 0o700 ∧
    chown (chown stA "/" 5 6).2 "/" 5 6 = chown stA "/" 5 6 :=
  ⟨c9_chmod_chown_idempotent.1 stA "/" 0o700 0 (by decide),
   c9_chmod_chown_idempotent.2 stA "/" 5 6 0 (by decide)⟩


/-! ### Claim C10: the truncate frame -/

lemma resolvePath_inodes (st : State) (p : String) :
    (resolvePath st p).2.inodes = st.inodes := by
  unfold resolvePath
  split
  · rfl
  · split <;> rfl

lemma resolvePath_dataBlocks (st : State) (p : String) :
    (resolvePath st p).2.dataBlocks = st.dataBlocks := by
  unfold resolvePath
  split
  · rfl
  · split <;> rfl

lemma resolvePath_freeBlockHead (st : State) (p : String) :
    (resolvePath st p).2.freeBlockHead = st.freeBlockHead := by
  unfold resolvePath
  split
  · rfl
  · split <;> rfl

lemma resolvePath_nextFreeInode (st : State) (p : String) :
    (resolvePath st p).2.nextFreeInode = st.nextFreeInode := by
  unfold resolvePath
  split
  · rfl
  · split <;> rfl

lemma resolvePath_clock (st : State) (p : String) :
    (resolvePath st p).2.clock = st.clock := by
  unfold resolvePath
  split
  · rfl
  · split <;> rfl

lemma resolvePath_fdTable (st : State) (p : String) :
    (resolvePath st p).2.fdTable = st.fdTable := by
  unfold resolvePath
  split
  · rfl
  · split <;> rfl

lemma resolvePath_nextFd (st : State) (p : String) :
    (resolvePath st p).2.nextFd = st.nextFd := by
  unfold resolvePath
  split
  · rfl
  · split <;> rfl

/-- Claim C10: truncate on a path resolving to a regular file returns 0
and writes only that inode's size, mtime and ctime (every other inode,
all data blocks, the free-list head and the inode high-water mark are
unchanged; the record equation shows blocks and all block pointers are
kept); on a path that does not resolve to a regular file it returns -1
and leaves the entire buffer state (inode table, data blocks,
superblock) unchanged. -/
theorem c10_truncate_frame :
    (∀ (st : State) (path : String) (len ino : Nat),
       (resolvePath st path).1 = some ino →
       (st.inodes ino).mode &&& S_IFMT = S_IFREG →
       (truncate st path len).1 = 0 ∧
       (truncate st path len).2.dataBlocks = st.dataBlocks ∧
       (truncate st path len).2.freeBlockHead = st.freeBlockHead ∧
       (truncate st path len).2.nextFreeInode = st.nextFreeInode ∧
       (∀ j, j ≠ ino → (truncate st path len).2.inodes j = st.inodes j) ∧
       (truncate st path len).2.inodes ino =
         { st.inodes ino with size := len, mtime := st.clock, ctime := st.clock }) ∧
    (∀ (st : State) (path : String) (len : Nat),
       (∀ ino, (resolvePath st path).1 = some ino →
          (st.inodes ino).mode &&& S_IFMT ≠ S_IFREG) →
       (truncate st path len).1 = -1 ∧
       (truncate st path len).2.inodes = st.inodes ∧
       (truncate st path len).2.dataBlocks = st.dataBlocks ∧
       (truncate st path len).2.freeBlockHead = st.freeBlockHead ∧
       (truncate st path len).2.nextFreeInode = st.nextFreeInode) := by
  constructor
  · intro st path len ino h hreg
    have hR : resolvePath st path = (some ino, (resolvePath st path).2) := by rw [← h]
    have hino : (resolvePath st path).2.inodes ino = st.inodes ino := by
      rw [resolvePath_inodes]
    have hEq : truncate st path len =
        (0, writeInode (resolvePath st path).2 ino
          { size := some len, mtime := some (resolvePath st path).2.clock,
            ctime := some (resolvePath st path).2.clock }) := by
      conv_lhs => rw [truncate, hR]
      dsimp only [readInode]
      rw [hino, hreg]
      simp
    refine ⟨by rw [hEq], ?_, ?_, ?_, ?_, ?_⟩
    · rw [hEq]
      show (resolvePath st path).2.dataBlocks = st.dataBlocks
      exact resolvePath_dataBlocks st path
    · rw [hEq]
      show (resolvePath st path).2.freeBlockHead = st.freeBlockHead
      exact resolvePath_freeBlockHead st path
    · rw [hEq]
      show (resolvePath st path).2.nextFreeInode = st.nextFreeInode
      exact resolvePath_nextFreeInode st path
    · intro j hj
      rw [hEq]
      show updF (resolvePath st path).2.inodes ino _ j = st.inodes j
      rw [updF, if_neg hj, resolvePath_inodes]
    · rw [hEq]
      show updF (resolvePath st path).2.inodes ino
          (applyUpd ((resolvePath st path).2.inodes ino)
            { size := some len, mtime := some (resolvePath st path).2.clock,
              ctime := some (resolvePath st path).2.clock }) ino = _
      rw [updF, if_pos rfl, hino, resolvePath_clock]
      simp [applyUpd]
  · intro st path len hno
    cases hres : (resolvePath st path).1 with
    | none =>
      have hR : resolvePath st path = (none, (resolvePath st path).2) := by rw [← hres]
      have hEq : truncate st path len = (-1, (resolvePath st path).2) := by
        conv_lhs => rw [truncate, hR]
      exact ⟨by rw [hEq], by rw [hEq]; exact resolvePath_inodes st path,
        by rw [hEq]; exact resolvePath_dataBlocks st path,
        by rw [hEq]; exact resolvePath_freeBlockHead st path,
        by rw [hEq]; exact resolvePath_nextFreeInode st path⟩
    | some ino =>
      have hR : resolvePath st path = (some ino, (resolvePath st path).2) := by rw [← hres]
      have hino : (resolvePath st path).2.inodes ino = st.inodes ino := by
        rw [resolvePath_inodes]
      have hEq : truncate st path len = (-1, (resolvePath st path).2) := by
        conv_lhs => rw [truncate, hR]
        dsimp only [readInode]
        rw [hino]
        simp [hno ino hres]
      exact ⟨by rw [hEq], by rw [hEq]; exact resolvePath_inodes st path,
        by rw [hEq]; exact resolvePath_dataBlocks st path,
        by rw [hEq]; exact resolvePath_freeBlockHead st path,
        by rw [hEq]; exact resolvePath_nextFreeInode st path⟩

/-- Witness for C10: truncating the regular file /a of stC1, and the
error case truncate on the root directory. -/
theorem c10_witness :
    ((truncate stC1 "/a" 3).1 = 0 ∧
     (truncate stC1 "/a" 3).2.inodes 1 =
       { stC1.inodes 1 with size := 3, mtime := stC1.clock, ctime := stC1.clock }) ∧
    ((truncate stA "/" 3).1 = -1 ∧ (truncate stA "/" 3).2.inodes = stA.inodes) := by
  constructor
  · have h := c10_truncate_frame.1 stC1 "/a" 3 1 (by decide) (by decide)
    exact ⟨h.1, h.2.2.2.2.2⟩
  · have h := c10_truncate_frame.2 stA "/" 3 ?_
    · exact ⟨h.1, h.2.1⟩
    · intro ino hres
      have h0 : (resolvePath stA "/").1 = some 0 := by decide
      rw [h0] at hres
      cases hres
      decide


/-! ### Claim C3: EXCL is ignored by open -/







/-- Claim C3 as amended: open ignores EXCL.  For every existing path
resolving to a non-directory inode, open(path, CREAT|EXCL, mode)
succeeds, returning a fresh descriptor onto the existing inode with no
file created (the whole buffer, including next_free_inode and the inode
table, is unchanged; only the path cache, fd counter and fd table move). -/
theorem c3_excl_ignored_open_succeeds (st : State) (path : String) (mode ino : Nat)
    (h : (resolvePath st path).1 = some ino)
    (hnd : (st.inodes ino).mode &&& S_IFMT ≠ S_IFDIR) :
    openFile st path (O_CREAT ||| O_EXCL) mode =
      (some st.nextFd,
        { (resolvePath st path).2 with
          nextFd := st.nextFd + 1,
          fdTable := setA st.fdTable st.nextFd
            { ino := ino, path := path, flags := O_CREAT ||| O_EXCL, pos := 0 } }) := by
  have hR : resolvePath st path = (some ino, (resolvePath st path).2) := by rw [← h]
  have hfol : ((O_CREAT ||| O_EXCL) &&& O_NOFOLLOW = 0) := by decide
  conv_lhs => rw [openFile]
  rw [if_pos hfol, hR]
  show openFinish (resolvePath st path).2 path (O_CREAT ||| O_EXCL) ino = _
  rw [openFinish]
  have hino : readInode (resolvePath st path).2 ino = st.inodes ino := by
    rw [readInode, resolvePath_inodes]
  rw [hino, if_neg hnd]
  rw [if_neg (show ¬((O_CREAT ||| O_EXCL) &&& O_TRUNC ≠ 0) by decide)]
  rw [if_neg (show ¬((O_CREAT ||| O_EXCL) &&& O_APPEND ≠ 0) by decide)]
  dsimp only
  rw [resolvePath_nextFd, resolvePath_fdTable]

/-- Witness for C3: reopening the existing /a (inode 1) of stC1 with
CREAT|EXCL succeeds. -/
theorem c3_excl_witness :
    openFile stC1 "/a" (O_CREAT ||| O_EXCL) 0o644 =
      (some stC1.nextFd,
        { (resolvePath stC1 "/a").2 with
          nextFd := stC1.nextFd + 1,
          fdTable := setA stC1.fdTable stC1.nextFd
            { ino := 1, path := "/a", flags := O_CREAT ||| O_EXCL, pos := 0 } }) :=
  c3_excl_ignored_open_succeeds stC1 "/a" 0o644 1 (by decide) (by decide)


/-! ### Claim C5: the allocBlockForFile failure paths -/

lemma updF_self {α : Type} (f : Nat → α) (k : Nat) (v : α) : updF f k v k = v := by
  simp [updF]

lemma foldl_setBlk_reads : ∀ (n a : Nat) (st : State) (j : Nat),
    ((List.range' a n).foldl (fun s i => setBlkU32 s i 0 (i + 1)) st).dataBlocks j
    = if a ≤ j ∧ j < a + n then setU32 (st.dataBlocks j) 0 (j + 1)
      else st.dataBlocks j := by
  intro n
  induction n with
  | zero =>
    intro a st j
    rw [if_neg (by omega)]
    rfl
  | succ m ih =>
    intro a st j
    rw [List.range'_succ]
    simp only [List.foldl_cons]
    rw [ih (a + 1)]
    by_cases hja : j = a
    · subst hja
      rw [if_neg (by omega), if_pos (by omega)]
      simp [setBlkU32, updF]
    · have hb : (setBlkU32 st a 0 (a + 1)).dataBlocks j = st.dataBlocks j := by
        simp [setBlkU32, updF, hja]
      rw [hb]
      by_cases h2 : a ≤ j ∧ j < a + (m + 1)
      · rw [if_pos (by omega), if_pos h2]
      · rw [if_neg (by omega), if_neg h2]

lemma foldl_setBlk_frame (l : List Nat) (st : State) :
    ((l.foldl (fun s i => setBlkU32 s i 0 (i + 1)) st).freeBlockHead = st.freeBlockHead ∧
     (l.foldl (fun s i => setBlkU32 s i 0 (i + 1)) st).dataBlockCount = st.dataBlockCount ∧
     (l.foldl (fun s i => setBlkU32 s i 0 (i + 1)) st).inodeCount = st.inodeCount ∧
     (l.foldl (fun s i => setBlkU32 s i 0 (i + 1)) st).nextFreeInode = st.nextFreeInode ∧
     (l.foldl (fun s i => setBlkU32 s i 0 (i + 1)) st).inodes = st.inodes) := by
  induction l generalizing st with
  | nil => exact ⟨rfl, rfl, rfl, rfl, rfl⟩
  | cons a tl ih =>
    simp only [List.foldl_cons]
    obtain ⟨f1, f2, f3, f4, f5⟩ := ih (setBlkU32 st a 0 (a + 1))
    exact ⟨f1, f2, f3, f4, f5⟩

lemma getU32_setU32_selfB (b : Block) (off v : Nat) (h : v < 4294967296) :
    getU32 (setU32 b off v) off = v := by
  simp [getU32, setU32, byteOf]
  omega

lemma freeWalkGo_term (st : State) : ∀ fuel, freeWalkGo st fuel TERM = 0 := by
  intro fuel
  cases fuel with
  | zero => rfl
  | succ f => simp [freeWalkGo]

/-- Conservation at initialization, over the generic init write sequence:
after threading the free list (blocks 1..dbc-2 linked, block dbc-1
terminated) over a zeroed buffer and writing the root inode, no inode
owns a block and exactly dbc - 1 blocks are reachable from the free
head, block 0 being on neither side. -/
theorem c4aux (st0 : State) (dbc : Nat) (u : InodeUpd)
    (h2 : 2 ≤ dbc) (hT : dbc < TERM)
    (hdb : st0.dataBlocks = fun _ => zeroBlock)
    (hin : st0.inodes = fun _ => Inode.zero)
    (hq : st0.freeBlockHead = 1) (hc : st0.dataBlockCount = dbc)
    (hu1 : u.direct = none) (hu2 : u.indirect = none) (hu3 : u.doubleIndirect = none) :
    countOwned (writeInode (setBlkU32
        ((List.range' 1 (dbc - 2)).foldl (fun s i => setBlkU32 s i 0 (i + 1)) st0)
        (dbc - 1) 0 TERM) 0 u)
      + (statfs (writeInode (setBlkU32
        ((List.range' 1 (dbc - 2)).foldl (fun s i => setBlkU32 s i 0 (i + 1)) st0)
        (dbc - 1) 0 TERM) 0 u)).bfree = dbc - 1 := by
  have hWdb : ∀ j, (writeInode (setBlkU32
      ((List.range' 1 (dbc - 2)).foldl (fun s i => setBlkU32 s i 0 (i + 1)) st0)
      (dbc - 1) 0 TERM) 0 u).dataBlocks j
      = if j = dbc - 1 then setU32 zeroBlock 0 TERM
        else if 1 ≤ j ∧ j < dbc - 1 then setU32 zeroBlock 0 (j + 1) else zeroBlock := by
    intro j
    show (setBlkU32 ((List.range' 1 (dbc - 2)).foldl (fun s i => setBlkU32 s i 0 (i + 1)) st0)
      (dbc - 1) 0 TERM).dataBlocks j = _
    by_cases hj1 : j = dbc - 1
    · subst hj1
      rw [if_pos rfl]
      show updF _ (dbc - 1) _ (dbc - 1) = _
      rw [updF]
      rw [if_pos rfl, foldl_setBlk_reads, if_neg (by omega), hdb]
    · rw [if_neg hj1]
      show updF _ (dbc - 1) _ j = _
      rw [updF, if_neg hj1, foldl_setBlk_reads, hdb]
      by_cases hj2 : 1 ≤ j ∧ j < dbc - 1
      · rw [if_pos (by omega), if_pos hj2]
      · rw [if_neg (by omega), if_neg hj2]
  have hread : ∀ k, 1 ≤ k → k ≤ dbc - 1 →
      getU32 ((writeInode (setBlkU32
        ((List.range' 1 (dbc - 2)).foldl (fun s i => setBlkU32 s i 0 (i + 1)) st0)
        (dbc - 1) 0 TERM) 0 u).dataBlocks k) 0
      = if k = dbc - 1 then TERM else k + 1 := by
    intro k hk1 hk2
    rw [hWdb k]
    by_cases hk : k = dbc - 1
    · rw [if_pos hk, if_pos hk]
      exact getU32_setU32_selfB _ _ _ (by simp [TERM])
    · rw [if_neg hk, if_pos (by omega), if_neg hk]
      exact getU32_setU32_selfB _ _ _ (by simp only [TERM] at hT ⊢; omega)
  have hwalk : ∀ fuel k, 1 ≤ k → k ≤ dbc - 1 → dbc - k ≤ fuel →
      freeWalkGo (writeInode (setBlkU32
        ((List.range' 1 (dbc - 2)).foldl (fun s i => setBlkU32 s i 0 (i + 1)) st0)
        (dbc - 1) 0 TERM) 0 u) fuel k = dbc - k := by
    intro fuel
    induction fuel with
    | zero => intro k hk1 hk2 hf; omega
    | succ f ih =>
      intro k hk1 hk2 hf
      rw [freeWalkGo]
      rw [if_neg (by simp only [TERM] at hT ⊢; omega)]
      rw [hread k hk1 hk2]
      by_cases hk : k = dbc - 1
      · rw [if_pos hk, freeWalkGo_term]
        omega
      · rw [if_neg hk]
        rw [ih (k + 1) (by omega) (by omega) (by omega)]
        omega
  have hhead : (writeInode (setBlkU32
      ((List.range' 1 (dbc - 2)).foldl (fun s i => setBlkU32 s i 0 (i + 1)) st0)
      (dbc - 1) 0 TERM) 0 u).freeBlockHead = 1 := by
    show ((List.range' 1 (dbc - 2)).foldl (fun s i => setBlkU32 s i 0 (i + 1)) st0).freeBlockHead = 1
    rw [(foldl_setBlk_frame _ _).1, hq]
  have hdbcW : (writeInode (setBlkU32
      ((List.range' 1 (dbc - 2)).foldl (fun s i => setBlkU32 s i 0 (i + 1)) st0)
      (dbc - 1) 0 TERM) 0 u).dataBlockCount = dbc := by
    show ((List.range' 1 (dbc - 2)).foldl (fun s i => setBlkU32 s i 0 (i + 1)) st0).dataBlockCount = dbc
    rw [(foldl_setBlk_frame _ _).2.1, hc]
  have hbfree : (statfs (writeInode (setBlkU32
      ((List.range' 1 (dbc - 2)).foldl (fun s i => setBlkU32 s i 0 (i + 1)) st0)
      (dbc - 1) 0 TERM) 0 u)).bfree = dbc - 1 := by
    show freeWalkGo _ _ _ = dbc - 1
    rw [hhead, hdbcW]
    have := hwalk dbc 1 (by omega) (by omega) (by omega)
    rw [this]
  have hinW : (writeInode (setBlkU32
      ((List.range' 1 (dbc - 2)).foldl (fun s i => setBlkU32 s i 0 (i + 1)) st0)
      (dbc - 1) 0 TERM) 0 u).inodes
      = updF (fun _ => Inode.zero) 0 (applyUpd Inode.zero u) := by
    show updF (setBlkU32 ((List.range' 1 (dbc - 2)).foldl (fun s i => setBlkU32 s i 0 (i + 1)) st0)
        (dbc - 1) 0 TERM).inodes 0
        (applyUpd ((setBlkU32 ((List.range' 1 (dbc - 2)).foldl (fun s i => setBlkU32 s i 0 (i + 1)) st0)
        (dbc - 1) 0 TERM).inodes 0) u) = _
    have hfi : (setBlkU32 ((List.range' 1 (dbc - 2)).foldl (fun s i => setBlkU32 s i 0 (i + 1)) st0)
        (dbc - 1) 0 TERM).inodes = fun _ => Inode.zero := by
      show ((List.range' 1 (dbc - 2)).foldl (fun s i => setBlkU32 s i 0 (i + 1)) st0).inodes = _
      rw [(foldl_setBlk_frame _ _).2.2.2.2, hin]
    rw [hfi]
  have hfilter : ((List.replicate 8 0).filter (fun b => b != 0)).length = 0 := by decide
  have howned : countOwned (writeInode (setBlkU32
      ((List.range' 1 (dbc - 2)).foldl (fun s i => setBlkU32 s i 0 (i + 1)) st0)
      (dbc - 1) 0 TERM) 0 u) = 0 := by
    rw [countOwned]
    apply List.sum_eq_zero
    intro x hx
    obtain ⟨i, hi, rfl⟩ := List.mem_map.mp hx
    rw [hinW]
    by_cases hi0 : i = 0
    · subst hi0
      rw [updF_self]
      rw [ownedOfInode]
      by_cases hm : (applyUpd Inode.zero u).mode = 0
      · rw [if_pos hm]
      · rw [if_neg hm]
        have hd : (applyUpd Inode.zero u).direct = List.replicate 8 0 := by
          simp [applyUpd, hu1, Inode.zero]
        have hi2 : (applyUpd Inode.zero u).indirect = 0 := by
          simp [applyUpd, hu2, Inode.zero]
        have hd2 : (applyUpd Inode.zero u).doubleIndirect = 0 := by
          simp [applyUpd, hu3, Inode.zero]
        rw [hd, hi2, hd2, if_pos rfl, if_pos rfl, hfilter]
        rfl
    · simp only [updF]
      rw [if_neg hi0]
      simp [ownedOfInode, Inode.zero]
  rw [howned, hbfree]
  omega



/-- Claim C4 as amended: in the state produced by initialize(N), the
number of data blocks owned by inodes plus the number of free blocks
reachable from free_block_head equals data_block_count - 1, not
data_block_count: block 0 of the data region is reserved and belongs to
neither count.  (Deeper reachable states break even this equality, since
open with TRUNC and unlink leak blocks - see C2/C10.) -/
theorem c4_init_conservation (n : Nat) (opt : Option Nat) (t : Nat)
    (h2 : 2 ≤ initDataBlockCount n opt) (hT : initDataBlockCount n opt < TERM) :
    countOwned (init n opt t) + (statfs (init n opt t)).bfree
      = initDataBlockCount n opt - 1 := by
  have hI : init n opt t = writeInode (setBlkU32
      ((List.range' 1 (initDataBlockCount n opt - 2)).foldl (fun s i => setBlkU32 s i 0 (i + 1))
        { magic := MAGIC, version := VERSION, sbBlockSize := BLOCK_SIZE,
          totalBlocks := n / BLOCK_SIZE,
          inodeCount := opt.getD (min (n / BLOCK_SIZE / 4) 65536),
          freeBlockHead := 1, nextFreeInode := 1, rootInode := 0,
          dataBlockCount := initDataBlockCount n opt,
          inodes := fun _ => Inode.zero, dataBlocks := fun _ => zeroBlock,
          fdTable := [], nextFd := 3, pathCache := [], clock := t })
      (initDataBlockCount n opt - 1) 0 TERM) 0
      { mode := some (S_IFDIR ||| 0o755), nlink := some 2, uid := some 0,
        gid := some 0, size := some 0, atime := some t, mtime := some t,
        ctime := some t } := rfl
  rw [hI]
  exact c4aux _ _ _ h2 hT rfl rfl rfl rfl rfl rfl rfl

/-- Witness for C4: the 32 KiB filesystem, where data_block_count = 6
and owned + free = 5. -/
theorem c4_witness :
    countOwned (init 32768 none 0) + (statfs (init 32768 none 0)).bfree
      = initDataBlockCount 32768 none - 1 :=
  c4_init_conservation 32768 none 0 (by decide) (by decide)



lemma Keeps.rfl2 (d : Nat) (st : State) : Keeps d st st := ⟨rfl, rfl, rfl, fun _ _ => rfl⟩

lemma Keeps.trans2 {d : Nat} {s1 s2 s3 : State} (h1 : Keeps d s1 s2) (h2 : Keeps d s2 s3) :
    Keeps d s1 s3 :=
  ⟨h2.1.trans h1.1, h2.2.1.trans h1.2.1, h2.2.2.1.trans h1.2.2.1,
   fun x hx => (h2.2.2.2 x hx).trans (h1.2.2.2 x hx)⟩

lemma keeps_allocBlock (d : Nat) (st : State) : Keeps d st (allocBlock st).2 := by
  rw [allocBlock]
  split
  · exact Keeps.rfl2 d st
  · exact ⟨rfl, rfl, rfl, fun _ _ => rfl⟩

lemma keeps_freeBlock (d : Nat) (st : State) (b : Nat) : Keeps d st (freeBlock st b) := by
  rw [freeBlock]
  split
  · exact Keeps.rfl2 d st
  · exact ⟨rfl, rfl, rfl, fun _ _ => rfl⟩

lemma keeps_writeInode (d : Nat) (st : State) (u : InodeUpd) :
    Keeps d st (writeInode st d u) :=
  ⟨rfl, rfl, rfl, fun x hx => by simp [writeInode, updF, hx]⟩

lemma keeps_setBlkU32 (d : Nat) (st : State) (b off v : Nat) :
    Keeps d st (setBlkU32 st b off v) := ⟨rfl, rfl, rfl, fun _ _ => rfl⟩

lemma keeps_setBlkU16 (d : Nat) (st : State) (b off v : Nat) :
    Keeps d st (setBlkU16 st b off v) := ⟨rfl, rfl, rfl, fun _ _ => rfl⟩

lemma keeps_fillBlk (d : Nat) (st : State) (b lo hi v : Nat) :
    Keeps d st (fillBlk st b lo hi v) := ⟨rfl, rfl, rfl, fun _ _ => rfl⟩

lemma keeps_setBlkBytes (d : Nat) (st : State) (b off : Nat) (bs : List Nat) :
    Keeps d st (setBlkBytes st b off bs) := ⟨rfl, rfl, rfl, fun _ _ => rfl⟩

lemma keeps_setDirectSlot (d : Nat) (st : State) (fb v : Nat) :
    Keeps d st (setDirectSlot st d fb v) :=
  ⟨rfl, rfl, rfl, fun x hx => by simp [setDirectSlot, updF, hx]⟩

lemma keeps_setIndirectField (d : Nat) (st : State) (v : Nat) :
    Keeps d st (setIndirectField st d v) :=
  ⟨rfl, rfl, rfl, fun x hx => by simp [setIndirectField, updF, hx]⟩

lemma keeps_setDoubleIndirectField (d : Nat) (st : State) (v : Nat) :
    Keeps d st (setDoubleIndirectField st d v) :=
  ⟨rfl, rfl, rfl, fun x hx => by simp [setDoubleIndirectField, updF, hx]⟩

lemma keeps_setBlocksField (d : Nat) (st : State) (v : Nat) :
    Keeps d st (setBlocksField st d v) :=
  ⟨rfl, rfl, rfl, fun x hx => by simp [setBlocksField, updF, hx]⟩

lemma keeps_bumpBlocks (d : Nat) (st : State) (nb : Nat) :
    Keeps d st (bumpBlocks st d nb).2 := keeps_setBlocksField d st _

lemma keeps_allocBlockForFile (d : Nat) (st : State) (fb : Nat) :
    Keeps d st (allocBlockForFile st d fb).2 := by
  rw [allocBlockForFile]
  rcases hA : allocBlock st with ⟨r0, st0⟩
  have k0 : Keeps d st st0 := by
    have := keeps_allocBlock d st
    rw [hA] at this
    exact this
  cases r0 with
  | none => exact k0
  | some nb =>
    dsimp only
    split
    · exact k0.trans2 ((keeps_setDirectSlot d st0 _ _).trans2 (keeps_bumpBlocks d _ _))
    · split
      · split
        · rcases hB : allocBlock st0 with ⟨r1, st1⟩
          have k1 : Keeps d st0 st1 := by
            have := keeps_allocBlock d st0
            rw [hB] at this
            exact this
          cases r1 with
          | none => exact k0.trans2 (k1.trans2 (keeps_freeBlock d st1 nb))
          | some ind =>
            dsimp only
            exact k0.trans2 (k1.trans2 ((keeps_setIndirectField d st1 ind).trans2
              ((keeps_setBlkU32 d _ _ _ _).trans2 (keeps_bumpBlocks d _ _))))
        · exact k0.trans2 ((keeps_setBlkU32 d st0 _ _ _).trans2 (keeps_bumpBlocks d _ _))
      · rcases hD : (if (st0.inodes d).doubleIndirect = 0 then
            match allocBlock st0 with
            | (none, _) => none
            | (some dd, st1) => some (dd, setDoubleIndirectField st1 d dd)
          else some ((st0.inodes d).doubleIndirect, st0)) with _ | ⟨dbl, stA⟩
        · rw [hD]
          dsimp only
          rcases hB : allocBlock st0 with ⟨r1, st1⟩
          have k1 : Keeps d st0 st1 := by
            have := keeps_allocBlock d st0
            rw [hB] at this
            exact this
          exact k0.trans2 (k1.trans2 (keeps_freeBlock d st1 nb))
        · have kA : Keeps d st0 stA := by
            by_cases h0 : (st0.inodes d).doubleIndirect = 0
            · rw [if_pos h0] at hD
              rcases hB : allocBlock st0 with ⟨r1, st1⟩
              have k1 : Keeps d st0 st1 := by
                have := keeps_allocBlock d st0
                rw [hB] at this
                exact this
              rw [hB] at hD
              cases r1 with
              | none => exact absurd hD (by simp)
              | some dd =>
                try simp only at hD
                cases hD
                exact k1.trans2 (keeps_setDoubleIndirectField d st1 _)
            · rw [if_neg h0] at hD
              try simp only at hD
              cases hD
              exact Keeps.rfl2 d st0
          rw [hD]
          dsimp only
          split
          · rcases hB : allocBlock stA with ⟨r1, stB⟩
            have kB : Keeps d stA stB := by
              have := keeps_allocBlock d stA
              rw [hB] at this
              exact this
            cases r1 with
            | none => exact k0.trans2 (kA.trans2 (kB.trans2 (keeps_freeBlock d stB nb)))
            | some l1p =>
              dsimp only
              exact k0.trans2 (kA.trans2 (kB.trans2 ((keeps_setBlkU32 d stB _ _ _).trans2
                ((keeps_setBlkU32 d _ _ _ _).trans2 (keeps_bumpBlocks d _ _)))))
          · exact k0.trans2 (kA.trans2 ((keeps_setBlkU32 d stA _ _ _).trans2
              (keeps_bumpBlocks d _ _)))

lemma keeps_placeEntry (d : Nat) (st : State) (dir : Inode) (nb : List Nat)
    (ino ty blk b i : Nat) :
    Keeps d st (placeEntry st d dir nb ino ty blk b i) := by
  rw [placeEntry]
  split
  · exact ((((keeps_setBlkU32 d st _ _ _).trans2 (keeps_setBlkU16 d _ _ _ _)).trans2
      ((keeps_setBlkU16 d _ _ _ _).trans2 (keeps_fillBlk d _ _ _ _ _))).trans2
      (keeps_setBlkBytes d _ _ _ _)).trans2 (keeps_writeInode d _ _)
  · exact (((keeps_setBlkU32 d st _ _ _).trans2 (keeps_setBlkU16 d _ _ _ _)).trans2
      ((keeps_setBlkU16 d _ _ _ _).trans2 (keeps_fillBlk d _ _ _ _ _))).trans2
      (keeps_setBlkBytes d _ _ _ _)

lemma keeps_addDirLoop (d : Nat) (dir : Inode) (nb : List Nat) (ino ty : Nat) :
    ∀ (fuel b : Nat) (st : State), Keeps d st (addDirLoop d dir nb ino ty fuel b st).2 := by
  intro fuel
  induction fuel with
  | zero => intro b st; exact Keeps.rfl2 d st
  | succ f ih =>
    intro b st
    rw [addDirLoop]
    cases hG : getBlockNum st dir b with
    | some blk =>
      dsimp only
      cases hF : findFreeSlot st blk with
      | some i =>
        exact keeps_placeEntry d st dir nb ino ty blk b i
      | none =>
        exact ih (b + 1) st
    | none =>
      rcases hA : allocBlockForFile st d b with ⟨r0, st1⟩
      have k1 : Keeps d st st1 := by
        have := keeps_allocBlockForFile d st b
        rw [hA] at this
        exact this
      cases r0 with
      | none => exact k1
      | some blk =>
        dsimp only
        cases hF : findFreeSlot st1 blk with
        | some i =>
          exact k1.trans2 (keeps_placeEntry d st1 dir nb ino ty blk b i)
        | none =>
          exact k1.trans2 (ih (b + 1) st1)

lemma keeps_addDirEntry (st : State) (d : Nat) (name : String) (ino ty : Nat) :
    Keeps d st (addDirEntry st d name ino ty).2 := by
  rw [addDirEntry]
  dsimp only
  split
  · exact Keeps.rfl2 d st
  · split
    · exact Keeps.rfl2 d st
    · exact keeps_addDirLoop d _ _ ino ty _ 0 st

lemma addDirEntry_nondir (st : State) (d : Nat) (name : String) (ino ty : Nat)
    (h : (st.inodes d).mode &&& S_IFMT ≠ S_IFDIR) :
    addDirEntry st d name ino ty = (false, st) := by
  rw [addDirEntry]
  dsimp only [readInode]
  rw [if_pos h]

lemma allocInode_frame (st : State) :
    (allocInode st).2.nextFd = st.nextFd ∧ (allocInode st).2.fdTable = st.fdTable ∧
    (allocInode st).2.clock = st.clock ∧ (allocInode st).2.pathCache = st.pathCache := by
  rw [allocInode]
  split
  · exact ⟨rfl, rfl, rfl, rfl⟩
  · exact ⟨rfl, rfl, rfl, rfl⟩

lemma resolveParent_frame (st : State) (p : String) :
    (resolveParent st p).2.2.nextFd = st.nextFd ∧
    (resolveParent st p).2.2.fdTable = st.fdTable ∧
    (resolveParent st p).2.2.clock = st.clock ∧
    (resolveParent st p).2.2.inodes = st.inodes := by
  rw [resolveParent]
  dsimp only
  split
  · exact ⟨rfl, rfl, rfl, rfl⟩
  · rcases hE : resolvePath st ("/" ++ String.intercalate "/" (pathParts (normalizePath p)).dropLast) with ⟨r, st1⟩
    dsimp only
    have h1 := resolvePath_nextFd st ("/" ++ String.intercalate "/" (pathParts (normalizePath p)).dropLast)
    have h2 := resolvePath_fdTable st ("/" ++ String.intercalate "/" (pathParts (normalizePath p)).dropLast)
    have h3 := resolvePath_clock st ("/" ++ String.intercalate "/" (pathParts (normalizePath p)).dropLast)
    have h4 := resolvePath_inodes st ("/" ++ String.intercalate "/" (pathParts (normalizePath p)).dropLast)
    rw [hE] at h1 h2 h3 h4
    exact ⟨h1, h2, h3, h4⟩

lemma openFinish_fail (st : State) (path : String) (flags ino : Nat)
    (h : (st.inodes ino).mode &&& S_IFMT = S_IFDIR) :
    openFinish st path flags ino = (none, st) := by
  rw [openFinish]
  dsimp only [readInode]
  rw [if_pos h]

lemma openFinish_spec (st : State) (path : String) (flags ino : Nat)
    (h : (st.inodes ino).mode &&& S_IFMT ≠ S_IFDIR) :
    (openFinish st path flags ino).1 = some st.nextFd ∧
    (openFinish st path flags ino).2.nextFd = st.nextFd + 1 ∧
    lookupA (openFinish st path flags ino).2.fdTable st.nextFd =
      some { ino := ino, path := path, flags := flags,
             pos := if flags &&& O_APPEND ≠ 0 then (st.inodes ino).size else 0 } := by
  rw [openFinish]
  dsimp only [readInode]
  rw [if_neg h]
  by_cases hT : flags &&& O_TRUNC ≠ 0
  · rw [if_pos hT]
    dsimp only
    exact ⟨rfl, rfl, lookupA_setA_self _ _ _⟩
  · rw [if_neg hT]
    dsimp only
    exact ⟨rfl, rfl, lookupA_setA_self _ _ _⟩

lemma reg_mode_type (m : Nat) :
    (S_IFREG ||| (m &&& 0o7777)) &&& S_IFMT = S_IFREG := by
  apply Nat.eq_of_testBit_eq
  intro i
  simp only [Nat.testBit_lor, Nat.testBit_land]
  have h1 : ((0o7777 : Nat) &&& S_IFMT) = 0 := by decide
  have h2 : ((S_IFREG : Nat) &&& S_IFMT) = S_IFREG := by decide
  have hb1 := congrArg (fun z => Nat.testBit z i) h1
  have hb2 := congrArg (fun z => Nat.testBit z i) h2
  simp only [Nat.testBit_land, Nat.zero_testBit] at hb1 hb2
  cases hm : m.testBit i <;> cases hr : (S_IFREG : Nat).testBit i <;>
    cases h7 : (0o7777 : Nat).testBit i <;> cases hf : (S_IFMT : Nat).testBit i <;>
    simp_all

lemma open_success_finish (st1 : State) (path : String) (flags ino fd : Nat) (st2 : State)
    (h : openFinish st1 path flags ino = (some fd, st2)) :
    fd = st1.nextFd ∧ st2.nextFd = st1.nextFd + 1 ∧
    lookupA st2.fdTable fd =
      some { ino := ino, path := path, flags := flags,
             pos := if flags &&& O_APPEND ≠ 0 then (st1.inodes ino).size else 0 } := by
  by_cases hd : (st1.inodes ino).mode &&& S_IFMT = S_IFDIR
  · rw [openFinish_fail _ _ _ _ hd] at h
    exact absurd h (by simp)
  · obtain ⟨s1, s2, s3⟩ := openFinish_spec st1 path flags ino hd
    have h1 : (openFinish st1 path flags ino).1 = some fd := by rw [h]
    have h2 : (openFinish st1 path flags ino).2 = st2 := by rw [h]
    rw [s1] at h1
    have hfd : fd = st1.nextFd := (Option.some.inj h1).symm
    rw [h2] at s2 s3
    subst hfd
    exact ⟨rfl, s2, s3⟩

lemma openFinish_fail_nextFd (st1 : State) (path : String) (flags ino : Nat) (st2 : State)
    (h : openFinish st1 path flags ino = (none, st2)) : st2.nextFd = st1.nextFd := by
  by_cases hd : (st1.inodes ino).mode &&& S_IFMT = S_IFDIR
  · rw [openFinish_fail _ _ _ _ hd] at h
    have h2 : st1 = st2 := congrArg Prod.snd h
    rw [← h2]
  · obtain ⟨s1, _, _⟩ := openFinish_spec st1 path flags ino hd
    have h1 : (openFinish st1 path flags ino).1 = none := by rw [h]
    rw [s1] at h1
    exact absurd h1 (by simp)

lemma open_success_create (st1 : State) (path : String) (flags mode fd : Nat) (st2 : State)
    (h : openCreate st1 path flags mode = (some fd, st2)) :
    fd = st1.nextFd ∧ st2.nextFd = st1.nextFd + 1 ∧
    ∃ ino, lookupA st2.fdTable fd =
      some { ino := ino, path := path, flags := flags, pos := 0 } := by
  rw [openCreate] at h
  rcases hP : resolveParent st1 path with ⟨rp, basename, stP⟩
  rw [hP] at h
  obtain ⟨p1, p2, p3, p4⟩ := resolveParent_frame st1 path
  rw [hP] at p1 p2 p3 p4
  cases rp with
  | none => exact absurd h (by simp)
  | some parentIno =>
    simp only at h
    rcases hAI : allocInode stP with ⟨ri, stI⟩
    rw [hAI] at h
    obtain ⟨a1, a2, a3, a4⟩ := allocInode_frame stP
    rw [hAI] at a1 a2 a3 a4
    cases ri with
    | none => exact absurd h (by simp)
    | some ino =>
      simp only at h
      rcases hAD : addDirEntry
          (writeInode stI ino
            { mode := some (S_IFREG ||| (mode &&& 0o7777)), nlink := some 1,
              uid := some 0, gid := some 0, size := some 0, atime := some stI.clock,
              mtime := some stI.clock, ctime := some stI.clock, blocks := some 0 })
          parentIno basename ino DT_REG with ⟨ok, st4⟩
      rw [hAD] at h
      have hmode : ((writeInode stI ino
          { mode := some (S_IFREG ||| (mode &&& 0o7777)), nlink := some 1,
            uid := some 0, gid := some 0, size := some 0, atime := some stI.clock,
            mtime := some stI.clock, ctime := some stI.clock, blocks := some 0 }).inodes
          ino).mode = S_IFREG ||| (mode &&& 0o7777) := by
        simp [writeInode, updF, applyUpd]
      have hsize0 : ((writeInode stI ino
          { mode := some (S_IFREG ||| (mode &&& 0o7777)), nlink := some 1,
            uid := some 0, gid := some 0, size := some 0, atime := some stI.clock,
            mtime := some stI.clock, ctime := some stI.clock, blocks := some 0 }).inodes
          ino).size = 0 := by
        simp [writeInode, updF, applyUpd]
      cases ok with
      | false => exact absurd h (by simp)
      | true =>
        simp only at h
        have hne : parentIno ≠ ino := by
          intro he
          subst he
          rw [addDirEntry_nondir _ _ _ _ _ (by
            rw [hmode, reg_mode_type]
            simp [S_IFREG, S_IFDIR])] at hAD
          exact absurd (congrArg Prod.fst hAD) (by simp)
        have hK : Keeps parentIno (writeInode stI ino
            { mode := some (S_IFREG ||| (mode &&& 0o7777)), nlink := some 1,
              uid := some 0, gid := some 0, size := some 0, atime := some stI.clock,
              mtime := some stI.clock, ctime := some stI.clock, blocks := some 0 }) st4 := by
          have := keeps_addDirEntry (writeInode stI ino
            { mode := some (S_IFREG ||| (mode &&& 0o7777)), nlink := some 1,
              uid := some 0, gid := some 0, size := some 0, atime := some stI.clock,
              mtime := some stI.clock, ctime := some stI.clock, blocks := some 0 })
            parentIno basename ino DT_REG
          rw [hAD] at this
          exact this
        obtain ⟨fd2, st3, hlook⟩ := open_success_finish _ path flags ino fd st2 h
        have hi4 : st4.inodes ino = (writeInode stI ino
            { mode := some (S_IFREG ||| (mode &&& 0o7777)), nlink := some 1,
              uid := some 0, gid := some 0, size := some 0, atime := some stI.clock,
              mtime := some stI.clock, ctime := some stI.clock, blocks := some 0 }).inodes
            ino :=
          hK.2.2.2 ino (Ne.symm hne)
        have hnf4 : st4.nextFd = st1.nextFd := by
          rw [hK.1]
          show stI.nextFd = st1.nextFd
          rw [a1, p1]
        have hft4 : st4.fdTable = st1.fdTable := by
          rw [hK.2.1]
          show stI.fdTable = st1.fdTable
          rw [a2, p2]
        refine ⟨?_, ?_, ⟨ino, ?_⟩⟩
        · rw [fd2]
          show st4.nextFd = st1.nextFd
          exact hnf4
        · rw [st3]
          show st4.nextFd + 1 = st1.nextFd + 1
          rw [hnf4]
        · rw [hlook]
          congr 1
          have : (({ st4 with pathCache := setA st4.pathCache (normalizePath path) ino }
              : State).inodes ino).size = 0 := by
            show (st4.inodes ino).size = 0
            rw [hi4, hsize0]
          rw [show (({ st4 with pathCache := setA st4.pathCache (normalizePath path) ino }
              : State).inodes ino).size = 0 from this]
          simp

lemma openCreate_fail_nextFd (st1 : State) (path : String) (flags mode : Nat) (st2 : State)
    (h : openCreate st1 path flags mode = (none, st2)) : st2.nextFd = st1.nextFd := by
  rw [openCreate] at h
  rcases hP : resolveParent st1 path with ⟨rp, basename, stP⟩
  rw [hP] at h
  obtain ⟨p1, p2, p3, p4⟩ := resolveParent_frame st1 path
  rw [hP] at p1 p2 p3 p4
  cases rp with
  | none =>
    simp only at h
    have h2 : stP = st2 := congrArg Prod.snd h
    rw [← h2]
    exact p1
  | some parentIno =>
    simp only at h
    rcases hAI : allocInode stP with ⟨ri, stI⟩
    rw [hAI] at h
    obtain ⟨a1, a2, a3, a4⟩ := allocInode_frame stP
    rw [hAI] at a1 a2 a3 a4
    cases ri with
    | none =>
      simp only at h
      have h2 : stI = st2 := congrArg Prod.snd h
      rw [← h2]
      rw [a1]
      exact p1
    | some ino =>
      simp only at h
      rcases hAD : addDirEntry
          (writeInode stI ino
            { mode := some (S_IFREG ||| (mode &&& 0o7777)), nlink := some 1,
              uid := some 0, gid := some 0, size := some 0, atime := some stI.clock,
              mtime := some stI.clock, ctime := some stI.clock, blocks := some 0 })
          parentIno basename ino DT_REG with ⟨ok, st4⟩
      rw [hAD] at h
      have hK : Keeps parentIno (writeInode stI ino
          { mode := some (S_IFREG ||| (mode &&& 0o7777)), nlink := some 1,
            uid := some 0, gid := some 0, size := some 0, atime := some stI.clock,
            mtime := some stI.clock, ctime := some stI.clock, blocks := some 0 }) st4 := by
        have := keeps_addDirEntry (writeInode stI ino
          { mode := some (S_IFREG ||| (mode &&& 0o7777)), nlink := some 1,
            uid := some 0, gid := some 0, size := some 0, atime := some stI.clock,
            mtime := some stI.clock, ctime := some stI.clock, blocks := some 0 })
          parentIno basename ino DT_REG
        rw [hAD] at this
        exact this
      have hnf4 : st4.nextFd = st1.nextFd := by
        rw [hK.1]
        show stI.nextFd = st1.nextFd
        rw [a1, p1]
      cases ok with
      | false =>
        simp only at h
        have h2 : st4 = st2 := congrArg Prod.snd h
        rw [← h2]
        exact hnf4
      | true =>
        simp only at h
        have := openFinish_fail_nextFd _ path flags ino st2 h
        rw [this]
        show st4.nextFd = st1.nextFd
        exact hnf4

theorem c6aux_success (st : State) (path : String) (flags mode fd : Nat) (st2 : State)
    (h : openFile st path flags mode = (some fd, st2)) :
    fd = st.nextFd ∧ st2.nextFd = st.nextFd + 1 ∧
    ∃ d : FileDesc, lookupA st2.fdTable fd = some d ∧ d.path = path ∧ d.flags = flags ∧
      d.pos = (if flags &&& O_APPEND ≠ 0 then
                 (match openResolve st path flags with
                  | some i => (st.inodes i).size
                  | none => 0)
               else 0) := by
  rw [openFile] at h
  try dsimp only at h
  by_cases hf : flags &&& O_NOFOLLOW = 0
  · rw [if_pos hf] at h
    rcases hR : resolvePath st path with ⟨r, st1⟩
    rw [hR] at h
    have hn1 := resolvePath_nextFd st path
    have hn2 := resolvePath_fdTable st path
    have hn3 := resolvePath_inodes st path
    rw [hR] at hn1 hn2 hn3
    have hOR : openResolve st path flags = r := by
      rw [openResolve, if_pos hf, hR]
    cases r with
    | some ino =>
      simp only at h
      obtain ⟨e1, e2, e3⟩ := open_success_finish st1 path flags ino fd st2 h
      refine ⟨by rw [e1]; exact hn1, by rw [e2, hn1], ?_⟩
      refine ⟨_, e3, rfl, rfl, ?_⟩
      rw [hOR]
      show (if flags &&& O_APPEND ≠ 0 then (st1.inodes ino).size else 0) = _
      rw [show st1.inodes = st.inodes from hn3]
    | none =>
      simp only at h
      by_cases hc : flags &&& O_CREAT = 0
      · rw [if_pos hc] at h
        exact absurd h (by simp)
      · rw [if_neg hc] at h
        obtain ⟨e1, e2, ino, e3⟩ := open_success_create st1 path flags mode fd st2 h
        refine ⟨by rw [e1]; exact hn1, by rw [e2, hn1], ?_⟩
        refine ⟨_, e3, rfl, rfl, ?_⟩
        rw [hOR]
        simp
  · rw [if_neg hf] at h
    have hOR : openResolve st path flags = lresolvePath st path := by
      rw [openResolve, if_neg hf]
    cases hL : lresolvePath st path with
    | some ino =>
      rw [hL] at h
      simp only at h
      obtain ⟨e1, e2, e3⟩ := open_success_finish st path flags ino fd st2 h
      refine ⟨e1, e2, ?_⟩
      refine ⟨_, e3, rfl, rfl, ?_⟩
      rw [hOR, hL]
    | none =>
      rw [hL] at h
      simp only at h
      by_cases hc : flags &&& O_CREAT = 0
      · rw [if_pos hc] at h
        exact absurd h (by simp)
      · rw [if_neg hc] at h
        obtain ⟨e1, e2, ino, e3⟩ := open_success_create st path flags mode fd st2 h
        refine ⟨e1, e2, ?_⟩
        refine ⟨_, e3, rfl, rfl, ?_⟩
        rw [hOR, hL]
        simp

theorem c6aux_fail (st : State) (path : String) (flags mode : Nat) (st2 : State)
    (h : openFile st path flags mode = (none, st2)) : st2.nextFd = st.nextFd := by
  rw [openFile] at h
  try dsimp only at h
  by_cases hf : flags &&& O_NOFOLLOW = 0
  · rw [if_pos hf] at h
    rcases hR : resolvePath st path with ⟨r, st1⟩
    rw [hR] at h
    have hn1 := resolvePath_nextFd st path
    rw [hR] at hn1
    cases r with
    | some ino =>
      simp only at h
      rw [openFinish_fail_nextFd st1 path flags ino st2 h]
      exact hn1
    | none =>
      simp only at h
      by_cases hc : flags &&& O_CREAT = 0
      · rw [if_pos hc] at h
        have h2 : st1 = st2 := congrArg Prod.snd h
        rw [← h2]
        exact hn1
      · rw [if_neg hc] at h
        rw [openCreate_fail_nextFd st1 path flags mode st2 h]
        exact hn1
  · rw [if_neg hf] at h
    cases hL : lresolvePath st path with
    | some ino =>
      rw [hL] at h
      simp only at h
      exact openFinish_fail_nextFd st path flags ino st2 h
    | none =>
      rw [hL] at h
      simp only at h
      by_cases hc : flags &&& O_CREAT = 0
      · rw [if_pos hc] at h
        have h2 : st = st2 := congrArg Prod.snd h
        rw [← h2]
      · rw [if_neg hc] at h
        exact openCreate_fail_nextFd st path flags mode st2 h

lemma foldl_setBlk_nextFd (l : List Nat) (st : State) :
    (l.foldl (fun s i => setBlkU32 s i 0 (i + 1)) st).nextFd = st.nextFd := by
  induction l generalizing st with
  | nil => rfl
  | cons a tl ih =>
    simp only [List.foldl_cons]
    exact ih _

lemma init_nextFd (n : Nat) (o : Option Nat) (t : Nat) : (init n o t).nextFd = 3 := by
  have hI : init n o t = writeInode (setBlkU32
      ((List.range' 1 (initDataBlockCount n o - 2)).foldl (fun s i => setBlkU32 s i 0 (i + 1))
        { magic := MAGIC, version := VERSION, sbBlockSize := BLOCK_SIZE,
          totalBlocks := n / BLOCK_SIZE,
          inodeCount := o.getD (min (n / BLOCK_SIZE / 4) 65536),
          freeBlockHead := 1, nextFreeInode := 1, rootInode := 0,
          dataBlockCount := initDataBlockCount n o,
          inodes := fun _ => Inode.zero, dataBlocks := fun _ => zeroBlock,
          fdTable := [], nextFd := 3, pathCache := [], clock := t })
      (initDataBlockCount n o - 1) 0 TERM) 0
      { mode := some (S_IFDIR ||| 0o755), nlink := some 2, uid := some 0,
        gid := some 0, size := some 0, atime := some t, mtime := some t,
        ctime := some t } := rfl
  rw [hI]
  exact foldl_setBlk_nextFd _ _

/-- Claim C6: the first descriptor ever returned is 3 (next_fd starts at 3
in initialize); every successful open returns the current next_fd,
increments it by one, and registers a descriptor with the requested path
and flags whose position is the file's size at open time when APPEND is
set (even when TRUNC also just zeroed the size - the pre-truncation size
is used, see the counterexample) and 0 otherwise; a failed open leaves
next_fd unchanged, so descriptors are never reused or skipped. -/
theorem c6_open_descriptor_registration :
    (∀ (n : Nat) (o : Option Nat) (t : Nat), (init n o t).nextFd = 3) ∧
    (∀ (st : State) (path : String) (flags mode fd : Nat) (st2 : State),
       openFile st path flags mode = (some fd, st2) →
       fd = st.nextFd ∧ st2.nextFd = st.nextFd + 1 ∧
       ∃ d : FileDesc, lookupA st2.fdTable fd = some d ∧ d.path = path ∧
         d.flags = flags ∧
         d.pos = (if flags &&& O_APPEND ≠ 0 then
                    (match openResolve st path flags with
                     | some i => (st.inodes i).size
                     | none => 0)
                  else 0)) ∧
    (∀ (st : State) (path : String) (flags mode : Nat) (st2 : State),
       openFile st path flags mode = (none, st2) → st2.nextFd = st.nextFd) :=
  ⟨init_nextFd, c6aux_success, c6aux_fail⟩

/-- Witness for C6: on the 32 KiB filesystem with /a of size 6, open with
WRONLY|APPEND|TRUNC returns descriptor 4 = next_fd, bumps next_fd to 5 and
registers the descriptor; opening a missing path read-only leaves next_fd
unchanged. -/
theorem c6_witness :
    (init 32768 none 0).nextFd = 3 ∧
    (4 = stD2.nextFd ∧
     (openFile stD2 "/a" (O_WRONLY ||| O_APPEND ||| O_TRUNC) 0o644).2.nextFd
       = stD2.nextFd + 1 ∧
     ∃ d : FileDesc,
       lookupA (openFile stD2 "/a" (O_WRONLY ||| O_APPEND ||| O_TRUNC) 0o644).2.fdTable 4
         = some d ∧
       d.path = "/a" ∧ d.flags = O_WRONLY ||| O_APPEND ||| O_TRUNC ∧
       d.pos = (if (O_WRONLY ||| O_APPEND ||| O_TRUNC) &&& O_APPEND ≠ 0 then
                  (match openResolve stD2 "/a" (O_WRONLY ||| O_APPEND ||| O_TRUNC) with
                   | some i => (stD2.inodes i).size
                   | none => 0)
                else 0)) ∧
    (openFile stA "/missing" O_RDONLY 0o644).2.nextFd = stA.nextFd := by
  have h1 : (openFile stD2 "/a" (O_WRONLY ||| O_APPEND ||| O_TRUNC) 0o644).1 = some 4 := by
    decide
  have h2 : (openFile stA "/missing" O_RDONLY 0o644).1 = none := by decide
  refine ⟨c6_open_descriptor_registration.1 32768 none 0, ?_, ?_⟩
  · exact c6_open_descriptor_registration.2.1 stD2 "/a" (O_WRONLY ||| O_APPEND ||| O_TRUNC)
      0o644 4 _ (by rw [← h1])
  · exact c6_open_descriptor_registration.2.2 stA "/missing" O_RDONLY 0o644 _ (by rw [← h2])

end SFS
